import Mathlib

/-!
# bot-manager: the bot runner (`api/internal/botrunner`)

A shallow embedding of `markdown.go` (the Markdown to Telegram MarkdownV2
translator) and of `bot.go` (the update handler and the delivery functions),
followed by the properties established about them.

Strings are sequences of characters.  Every delimiter and every class bound of
the two regular expressions is ASCII, so matching character by character and
matching byte by byte select the same spans; indices count characters.
-/

namespace BotRunner

/-- A Go string, as the sequence of its characters. -/
abbrev Str := List Char

/-! ## `markdown.go` -/

/-- The call strings.ReplaceAll(s, "\\n", "\n") made by mdToTelegramV2 and by sendMsg:
every non-overlapping two-character pair backslash, n (scanning left to right)
becomes one line feed. -/
def normNewlines : Str → Str
  | [] => []
  | [c] => [c]
  | c :: d :: rest =>
    if c = '\\' ∧ d = 'n' then '\n' :: normNewlines rest
    else c :: normNewlines (d :: rest)

/-- The character class of plainEscapeRe, in the order the source lists it. -/
def plainEscapeClass : List Char :=
  ['_', '*', '[', ']', '(', ')', '~', '\x60', '>', '#', '+', '=', '|', '\x7b', '\x7d',
   '.', '!', '-', '\\']

/-- The function escPlain: plainEscapeRe.ReplaceAllString(s, "\\$1") puts a backslash
before every character of the class. -/
def escPlain : Str → Str
  | [] => []
  | c :: cs =>
    if plainEscapeClass.contains c then '\\' :: c :: escPlain cs else c :: escPlain cs

/-- The function escLinkURL: strings.ReplaceAll(url, ")", "\\)"). -/
def escLinkURL : Str → Str
  | [] => []
  | c :: cs => if c = ')' then '\\' :: ')' :: escLinkURL cs else c :: escLinkURL cs

/-! ### Leftmost-first matching

Go's `regexp` returns the match a backtracking search finds first.  A matcher
is written in continuation-passing style: it is given the position reached, the
input that remains, and passes both on to what follows it in the pattern. -/

/-- What follows in the pattern: from a position and the remaining input to the
index vector of the match, if the rest of the pattern matches. -/
abbrev Kont := Nat → Str → Option (List Int)

/-- A literal string. -/
def lit (d : Str) (k : Kont) : Kont := fun pos s =>
  if d.isPrefixOf s then k (pos + d.length) (s.drop d.length) else none

/-- One character of a class. -/
def one (p : Char → Bool) (k : Kont) : Kont := fun pos s =>
  match s with
  | [] => none
  | c :: cs => if p c then k (pos + 1) cs else none

/-- The lazy star of a class: first try to go on without consuming, only then
consume one more character. -/
def starLazy (p : Char → Bool) (k : Kont) : Nat → Str → Option (List Int)
  | pos, [] => k pos []
  | pos, c :: cs =>
    match k pos (c :: cs) with
    | some m => some m
    | none => if p c then starLazy p k (pos + 1) cs else none

/-- The greedy star of a class: first consume one more character, and go on
without it only when that fails. -/
def starGreedy (p : Char → Bool) (k : Kont) : Nat → Str → Option (List Int)
  | pos, [] => k pos []
  | pos, c :: cs =>
    if p c then
      match starGreedy p k (pos + 1) cs with
      | some m => some m
      | none => k pos (c :: cs)
    else k pos (c :: cs)

/-- Alternation: the left branch wins whenever it matches. -/
def alt (a b : Nat → Str → Option (List Int)) : Nat → Str → Option (List Int) := fun pos s =>
  match a pos s with
  | some m => some m
  | none => b pos s

/-- The class of `.` (no s flag): everything but the line feed. -/
def dot (c : Char) : Bool := c != '\n'

/-- The class `[\s\S]`: every character. -/
def anyChar (_ : Char) : Bool := true

/-- The class `[^x\n]`. -/
def notCharNL (x : Char) (c : Char) : Bool := c != x && c != '\n'

/-- The class `[^x]`. -/
def notChar (x : Char) (c : Char) : Bool := c != x

/-- The index vector of a match from s to e in which only capture group g
(1 to 7), spanning a to b, took part: 20 entries, -1 for the other groups. -/
def caps (s e : Nat) (g : Nat) (a b : Nat) : List Int :=
  [(s : Int), (e : Int)] ++
    (List.range 9).flatMap fun j => if j + 1 = g then [(a : Int), (b : Int)] else [-1, -1]

/-- The index vector of a link match: groups 8 (text) and 9 (url) took part. -/
def capsLink (s e a b c d : Nat) : List Int :=
  [(s : Int), (e : Int), -1, -1, -1, -1, -1, -1, -1, -1, -1, -1, -1, -1, -1, -1,
   (a : Int), (b : Int), (c : Int), (d : Int)]

/-- Alternative 1: "(```[\s\S]*?```)". -/
def fencedAlt : Nat → Str → Option (List Int) := fun i s =>
  lit "```".toList (starLazy anyChar (lit "```".toList fun e _ => some (caps i e 1 i e))) i s

/-- Alternative 2: "(`[^`\n]+`)". -/
def inlineAlt : Nat → Str → Option (List Int) := fun i s =>
  lit "`".toList (one (notCharNL '\x60') (starGreedy (notCharNL '\x60')
    (lit "`".toList fun e _ => some (caps i e 2 i e)))) i s

/-- Alternatives 3, 4 and 5: a delimiter, "(.+?)", the same delimiter. -/
def emphAlt (d : Str) (g : Nat) : Nat → Str → Option (List Int) := fun i s =>
  lit d (fun a => one dot (starLazy dot fun b => lit d (fun e _ => some (caps i e g a b)) b) a) i s

/-- Alternatives 6 and 7: "x([^x\n]+?)x" for x an asterisk or an underscore. -/
def italicAlt (x : Char) (g : Nat) : Nat → Str → Option (List Int) := fun i s =>
  lit [x] (fun a => one (notCharNL x) (starLazy (notCharNL x)
    fun b => lit [x] (fun e _ => some (caps i e g a b)) b) a) i s

/-- Alternative 8: "\[([^\]]*)\]\(([^)]*)\)". -/
def linkAlt : Nat → Str → Option (List Int) := fun i s =>
  lit "[".toList (fun a => starGreedy (notChar ']') (fun b => lit "](".toList
    (fun c => starGreedy (notChar ')') (fun d => lit ")".toList
      (fun e _ => some (capsLink i e a b c d)) d) c) b) a) i s

/-- The pattern mdPattern tried at one position: the eight alternatives in the
order of the source. -/
def mdPattern : Nat → Str → Option (List Int) :=
  alt fencedAlt (alt inlineAlt (alt (emphAlt "***".toList 3) (alt (emphAlt "**".toList 4)
    (alt (emphAlt "~~".toList 5) (alt (italicAlt '*' 6) (alt (italicAlt '_' 7) linkAlt))))))

/-- The leftmost match at or after a position: the pattern is tried at every
position in turn. -/
def searchFrom (re : Nat → Str → Option (List Int)) : Nat → Str → Option (List Int)
  | pos, [] => re pos []
  | pos, c :: cs =>
    match re pos (c :: cs) with
    | some m => some m
    | none => searchFrom re (pos + 1) cs

/-- The loop of FindAllStringSubmatchIndex: successive non-overlapping matches,
each search starting where the previous match ended.  The first argument is the
library's own bound on the number of matches. -/
def allMatches (re : Nat → Str → Option (List Int)) (input : Str) : Nat → Nat → List (List Int)
  | 0, _ => []
  | n + 1, pos =>
    match searchFrom re pos (input.drop pos) with
    | none => []
    | some m => m :: allMatches re input n (m.getD 1 0).toNat

/-- The call re.FindAllStringSubmatchIndex(input, -1); with n = -1 the library
allows len(input) + 1 matches. -/
def findAllStringSubmatchIndex (re : Nat → Str → Option (List Int)) (input : Str) :
    List (List Int) :=
  allMatches re input (input.length + 1) 0

/-- The slice expression s[a:b]; none is the runtime fault of an index out of
range. -/
def slice (s : Str) (a b : Int) : Option Str :=
  if 0 ≤ a ∧ a ≤ b ∧ b ≤ (s.length : Int) then
    some ((s.drop a.toNat).take (b.toNat - a.toNat))
  else none

/-- The index expression m[i]; none is the runtime fault of an index out of
range. -/
def idx (m : List Int) (i : Nat) : Option Int := m[i]?

/-- A delimiter pair around the escaped capture m[i]..m[i+1]. -/
def wrapped (input : Str) (m : List Int) (i : Nat) (l r : Str) : Option Str :=
  (idx m i).bind fun a => (idx m (i + 1)).bind fun b =>
    (slice input a b).map fun c => l ++ escPlain c ++ r

/-- The last case of the switch of mdToTelegramV2, "case m[16] >= 0", and the
fall-through of a switch without default. -/
def renderLink (input : Str) (m : List Int) : Option Str :=
  (idx m 16).bind fun m16 =>
  if m16 ≥ 0 then
    (idx m 17).bind fun m17 => (idx m 18).bind fun m18 => (idx m 19).bind fun m19 =>
    (slice input m16 m17).bind fun text => (slice input m18 m19).map fun url =>
      ['['] ++ escPlain text ++ "](".toList ++ escLinkURL url ++ [')']
  else some []

/-- One emphasis case of the switch, "case m[i] >= 0", with the cases after it. -/
def renderCase (input : Str) (m : List Int) (i : Nat) (l r : Str) (next : Option Str) :
    Option Str :=
  (idx m i).bind fun v => if v ≥ 0 then wrapped input m i l r else next

/-- One code case of the switch, "case m[i] >= 0", which writes input[start:end],
with the cases after it. -/
def renderCode (input : Str) (m : List Int) (i : Nat) (start stop : Int) (next : Option Str) :
    Option Str :=
  (idx m i).bind fun v => if v ≥ 0 then slice input start stop else next

/-- The switch of mdToTelegramV2: what one match writes to the builder. -/
def renderMatch (input : Str) (m : List Int) (start stop : Int) : Option Str :=
  renderCode input m 2 start stop <|
  renderCode input m 4 start stop <|
  renderCase input m 6 "*_".toList "_*".toList <|
  renderCase input m 8 ['*'] ['*'] <|
  renderCase input m 10 ['~'] ['~'] <|
  renderCase input m 12 ['_'] ['_'] <|
  renderCase input m 14 ['_'] ['_'] <|
  renderLink input m

/-- The for loop of mdToTelegramV2 over the matches, with the builder b and the
variable last, followed by the write of the tail. -/
def translateLoop (input : Str) : List (List Int) → Str → Int → Option Str
  | [], b, last => (slice input last input.length).map fun tail => b ++ escPlain tail
  | m :: ms, b, last =>
    (idx m 0).bind fun start => (idx m 1).bind fun stop =>
    (slice input last start).bind fun pre =>
    (renderMatch input m start stop).bind fun tok =>
    translateLoop input ms (b ++ escPlain pre ++ tok) stop

/-- The function mdToTelegramV2; none is a runtime fault. -/
def mdToTelegramV2 (input : Str) : Option Str :=
  let input := normNewlines input
  translateLoop input (findAllStringSubmatchIndex mdPattern input) [] 0

/-! ### Notions used to state the properties -/

/-- The five characters one of which opens every alternative of mdPattern. -/
def markupOpeners : List Char := ['\x60', '*', '_', '~', '[']

/-- Every result the continuation gives from a position at or after lo, in an
input that ends at position L, satisfies Q. -/
def KontOK (L lo : Nat) (k : Kont) (Q : List Int → Prop) : Prop :=
  ∀ j s m, lo ≤ j → j + s.length = L → k j s = some m → Q m

/-- The index vector m describes a match that starts at i, is not empty, ends
within an input of length L, and whose capture groups lie inside the match. -/
def ValidMatch (i L : Nat) (m : List Int) : Prop :=
  ∃ e : Nat, i < e ∧ e ≤ L ∧
    ((∃ g a b, 1 ≤ g ∧ g ≤ 7 ∧ i ≤ a ∧ a ≤ b ∧ b ≤ e ∧ m = caps i e g a b) ∨
     (∃ a b c d, i ≤ a ∧ a ≤ b ∧ b ≤ c ∧ c ≤ d ∧ d ≤ e ∧ m = capsLink i e a b c d))

/-- The index vector m is that of a valid match at i by one of the alternatives
1 to 7: a single capture group took part. -/
def ValidCaps (i L : Nat) (m : List Int) : Prop :=
  ValidMatch i L m ∧ ∃ e g a b : Nat, 1 ≤ g ∧ g ≤ 7 ∧ m = caps i e g a b

/-- The reserved characters as the specification lists them (rule 3 of the
translator): underscore, asterisk, square brackets, parentheses, tilde,
backtick, angle bracket, hash, plus, minus, equals, pipe, curly braces, period,
exclamation mark and the backslash. -/
def specReserved : List Char :=
  ['_', '*', '[', ']', '(', ')', '~', '\x60', '>', '#', '+', '-', '=', '|', '\x7b', '\x7d',
   '.', '!', '\\']

/-- The plain-text escaping rule in the specification's words: each reserved
character is preceded by one backslash, every other character is unchanged. -/
def specEscape (s : Str) : Str :=
  s.flatMap fun c => if c ∈ specReserved then ['\\', c] else [c]

/-- The index pair of one capture group, in an input of length L: the group
took no part in the match (both are -1), or the pair bounds a valid slice. -/
def GroupOK (L : Nat) (a b : Int) : Prop :=
  (a = -1 ∧ b = -1) ∨ (0 ≤ a ∧ a ≤ b ∧ b ≤ (L : Int))

/-- The index vector m of a match found after position last in an input of
length L: it has 20 entries; the match lies between last and the end of the
input; every capture group is absent or bounds a valid slice; and the url group
took part whenever the link text group did. -/
def IndicesOK (L : Nat) (last : Int) (m : List Int) : Prop :=
  m.length = 20 ∧
  (∃ start stop, idx m 0 = some start ∧ idx m 1 = some stop ∧
    last ≤ start ∧ start ≤ stop ∧ stop ≤ (L : Int)) ∧
  (∀ g, 1 ≤ g → g ≤ 9 →
    ∃ a b, idx m (2 * g) = some a ∧ idx m (2 * g + 1) = some b ∧ GroupOK L a b) ∧
  (∀ a c, idx m 16 = some a → idx m 18 = some c → 0 ≤ a → 0 ≤ c)

/-- The matches are in order and do not overlap: each lies after the end of the
one before it (the value of the variable last when the loop reaches it), and the
last one ends within the input. -/
def MatchesInOrder (L : Nat) : Int → List (List Int) → Prop
  | last, [] => 0 ≤ last ∧ last ≤ (L : Int)
  | last, m :: ms =>
    0 ≤ last ∧ IndicesOK L last m ∧ ∃ stop, idx m 1 = some stop ∧ MatchesInOrder L stop ms

/-! ## `bot.go`

The handler and the delivery functions call the messaging platform and the
object store.  Every call is recorded, with its outcome, in a trace; the
outcome of a call is given by the environment as a function of the trace so
far, so that two calls with the same arguments may end differently.  A handler
takes the trace before it and returns the trace after it; none is a runtime
fault.  Calls to the logger are not recorded. -/

/-- Modelled from the spec: the type db.Bot, declared outside the files at hand;
these are the fields bot.go reads. -/
structure Bot where
  ID : Str
  ChannelID : Int
  ButtonText : Str
  WelcomeMsg : Str
  WelcomeImgKey : Str
  NotSubMsg : Str
  SuccessMsg : Str
  deriving DecidableEq

/-- The library type Chat: identifier and type (the field Type: "private",
"group", "supergroup" or "channel"). -/
structure Chat where
  ID : Int
  ChatType : Str
  deriving DecidableEq

/-- The library method Chat.IsGroup: the type is "group". -/
def Chat.IsGroup (c : Chat) : Bool := c.ChatType == "group".toList

/-- The library type User. -/
structure User where
  ID : Int
  deriving DecidableEq

/-- The library type Message: the chat (a pointer, possibly nil) and the value
its method Command() returns. -/
structure Message where
  Chat : Option Chat
  Command : Str
  deriving DecidableEq

/-- The library type CallbackQuery; From and Message are pointers, possibly nil. -/
structure CallbackQuery where
  ID : Str
  From : Option User
  Message : Option Message
  Data : Str
  deriving DecidableEq

/-- The library type Update; both fields are pointers, possibly nil. -/
structure Update where
  Message : Option Message
  CallbackQuery : Option CallbackQuery
  deriving DecidableEq

/-- One button of an inline keyboard: its label and its callback data. -/
structure Button where
  Text : Str
  CallbackData : Str
  deriving DecidableEq

/-- An inline keyboard: rows of buttons. -/
abbrev Keyboard := List (List Button)

/-- The library type MessageConfig. -/
structure MessageConfig where
  ChatID : Int
  Text : Str
  ParseMode : Str
  ReplyMarkup : Option Keyboard
  deriving DecidableEq

/-- The library type FileReader: the file name, and the object key whose stream
is read. -/
structure FileReader where
  Name : Str
  Reader : Str
  deriving DecidableEq

/-- The library type PhotoConfig. -/
structure PhotoConfig where
  ChatID : Int
  File : FileReader
  Caption : Str
  ParseMode : Str
  ReplyMarkup : Option Keyboard
  deriving DecidableEq

/-- The library type DocumentConfig. -/
structure DocumentConfig where
  ChatID : Int
  File : FileReader
  deriving DecidableEq

/-- What bot.Send is given. -/
inductive Chattable where
  | message (m : MessageConfig)
  | photo (p : PhotoConfig)
  | document (d : DocumentConfig)
  deriving DecidableEq

/-- The result of bot.GetChatMember: the member's status, or an error. -/
inductive MemberResult where
  | ok (status : Str)
  | error (msg : Str)
  deriving DecidableEq

/-- One call to the platform or to the object store, with its outcome; an
error is its text, none is the nil error. -/
inductive Event where
  | send (c : Chattable) (err : Option Str)
  | answerCallback (callbackID : Str) (text : Str)
  | getChatMember (chatID : Int) (userID : Int) (res : MemberResult)
  | getObject (key : Str) (err : Option Str)
  | listObjects (pfx : Str) (objects : List Str) (err : Option Str)
  deriving DecidableEq

/-- The environment: the outcome of each call, given the trace before it. -/
structure Env where
  send : List Event → Chattable → Option Str
  getChatMember : List Event → Int → Int → MemberResult
  getObject : List Event → Str → Option Str
  listObjects : List Event → Str → List Str × Option Str

/-- The library function strings.Contains. -/
def stringsContains (s sub : Str) : Bool := s.tails.any fun t => sub.isPrefixOf t

/-- The library function strings.Split for a one-character separator. -/
def stringsSplit (sep : Char) : Str → List Str
  | [] => [[]]
  | c :: cs =>
    match stringsSplit sep cs with
    | [] => [[c]]
    | p :: ps => if c = sep then [] :: p :: ps else (c :: p) :: ps

/-- The constant tgbotapi.ModeMarkdownV2. -/
def ModeMarkdownV2 : Str := "MarkdownV2".toList

/-- The text by which the platform reports that it cannot parse the markup. -/
def parseErrorText : Str := "can\x27t parse entities".toList

/-- The library function NewMessage. -/
def NewMessage (chatID : Int) (text : Str) : MessageConfig :=
  { ChatID := chatID, Text := text, ParseMode := [], ReplyMarkup := none }

/-- The library function NewPhoto. -/
def NewPhoto (chatID : Int) (file : FileReader) : PhotoConfig :=
  { ChatID := chatID, File := file, Caption := [], ParseMode := [], ReplyMarkup := none }

/-- The library function NewDocument. -/
def NewDocument (chatID : Int) (file : FileReader) : DocumentConfig :=
  { ChatID := chatID, File := file }

/-- The call bot.Send(c): the error it returns and the trace after it. -/
def botSend (env : Env) (c : Chattable) (tr : List Event) : Option Str × List Event :=
  let err := env.send tr c
  (err, tr ++ [Event.send c err])

/-- The call store.GetObject(ctx, key): the error it returns and the trace
after it. -/
def storeGetObject (env : Env) (key : Str) (tr : List Event) : Option Str × List Event :=
  let err := env.getObject tr key
  (err, tr ++ [Event.getObject key err])

/-- The function sendMsg. -/
def sendMsg (env : Env) (msg : MessageConfig) (tr : List Event) : Option (List Event) :=
  let original := normNewlines msg.Text
  (mdToTelegramV2 msg.Text).bind fun text =>
  let msg := { msg with Text := text, ParseMode := ModeMarkdownV2 }
  match botSend env (Chattable.message msg) tr with
  | (none, tr) => some tr
  | (some err, tr) =>
    if stringsContains err parseErrorText then
      let msg := { msg with ParseMode := [], Text := original }
      some (botSend env (Chattable.message msg) tr).2
    else some tr

/-- The keyboard sendWelcome and sendNotSub build: one row of one button. -/
def subscribeKeyboard (cfg : Bot) : Keyboard :=
  [[{ Text := cfg.ButtonText, CallbackData := "check_subscription".toList }]]

/-- The message at the end of sendWelcome: NewMessage(chatID, cfg.WelcomeMsg)
with the keyboard as reply markup. -/
def welcomeMessage (cfg : Bot) (chatID : Int) : MessageConfig :=
  { NewMessage chatID cfg.WelcomeMsg with ReplyMarkup := some (subscribeKeyboard cfg) }

/-- The message of sendNotSub: NewMessage(chatID, cfg.NotSubMsg) with the
keyboard as reply markup. -/
def notSubMessage (cfg : Bot) (chatID : Int) : MessageConfig :=
  { NewMessage chatID cfg.NotSubMsg with ReplyMarkup := some (subscribeKeyboard cfg) }

/-- The first photo of sendWelcome: the image under the name welcome.jpg, the
translated caption, parse mode MarkdownV2 and the keyboard. -/
def formattedPhoto (cfg : Bot) (chatID : Int) (caption : Str) : Chattable :=
  Chattable.photo
    { NewPhoto chatID { Name := "welcome.jpg".toList, Reader := cfg.WelcomeImgKey } with
      Caption := caption, ParseMode := ModeMarkdownV2,
      ReplyMarkup := some (subscribeKeyboard cfg) }

/-- The second photo of sendWelcome: the image again, the welcome text as it
is configured for caption, no parse mode, and the keyboard. -/
def plainPhoto (cfg : Bot) (chatID : Int) : Chattable :=
  Chattable.photo
    { NewPhoto chatID { Name := "welcome.jpg".toList, Reader := cfg.WelcomeImgKey } with
      Caption := cfg.WelcomeMsg, ReplyMarkup := some (subscribeKeyboard cfg) }

/-- The text-only welcome at the end of sendWelcome. -/
def sendWelcomeText (env : Env) (cfg : Bot) (chatID : Int) (tr : List Event) :
    Option (List Event) :=
  sendMsg env (welcomeMessage cfg chatID) tr

/-- The retry of sendWelcome after a parse error: a fresh stream and a photo
without parse mode. -/
def sendWelcomeRetry (env : Env) (cfg : Bot) (chatID : Int) (tr : List Event) :
    Option (List Event) :=
  match storeGetObject env cfg.WelcomeImgKey tr with
  | (none, tr) =>
    match botSend env (plainPhoto cfg chatID) tr with
    | (none, tr) => some tr
    | (some _, tr) => sendWelcomeText env cfg chatID tr
  | (some _, tr) => sendWelcomeText env cfg chatID tr

/-- The function sendWelcome. -/
def sendWelcome (env : Env) (cfg : Bot) (chatID : Int) (tr : List Event) : Option (List Event) :=
  if cfg.WelcomeImgKey ≠ [] then
    match storeGetObject env cfg.WelcomeImgKey tr with
    | (none, tr) =>
      (mdToTelegramV2 cfg.WelcomeMsg).bind fun caption =>
      match botSend env (formattedPhoto cfg chatID caption) tr with
      | (none, tr) => some tr
      | (some sendErr, tr) =>
        if stringsContains sendErr parseErrorText then sendWelcomeRetry env cfg chatID tr
        else sendWelcomeText env cfg chatID tr
    | (some _, tr) => sendWelcomeText env cfg chatID tr
  else sendWelcomeText env cfg chatID tr

/-- The function sendNotSub. -/
def sendNotSub (env : Env) (cfg : Bot) (chatID : Int) (tr : List Event) : Option (List Event) :=
  sendMsg env (notSubMessage cfg chatID) tr

/-- The for loop of sendSuccess over the listed objects. -/
def sendDocuments (env : Env) (chatID : Int) : List Str → List Event → Option (List Event)
  | [], tr => some tr
  | key :: rest, tr =>
    match storeGetObject env key tr with
    | (some _, tr) => sendDocuments env chatID rest tr
    | (none, tr) =>
      (stringsSplit '/' key).getLast?.bind fun filename =>
      sendDocuments env chatID rest
        (botSend env (Chattable.document (NewDocument chatID { Name := filename, Reader := key }))
          tr).2

/-- The function sendSuccess. -/
def sendSuccess (env : Env) (cfg : Bot) (chatID : Int) (tr : List Event) : Option (List Event) :=
  let pfx := cfg.ID ++ "/docs/".toList
  let listed := env.listObjects tr pfx
  let tr := tr ++ [Event.listObjects pfx listed.1 listed.2]
  let objects := if listed.2.isSome then [] else listed.1
  if objects.length = 0 then
    if cfg.SuccessMsg ≠ [] then sendMsg env (NewMessage chatID cfg.SuccessMsg) tr else some tr
  else
    (if cfg.SuccessMsg ≠ [] then sendMsg env (NewMessage chatID cfg.SuccessMsg) tr
     else some tr).bind fun tr =>
    sendDocuments env chatID objects tr

/-- The callback branch of handleBotUpdate. -/
def handleCallback (env : Env) (cfg : Bot) (cq : CallbackQuery) (tr : List Event) :
    Option (List Event) :=
  cq.Message.bind fun message => message.Chat.bind fun chat =>
  let chatID := chat.ID
  cq.From.bind fun sender =>
  let userID := sender.ID
  let tr := tr ++ [Event.answerCallback cq.ID []]
  let member := env.getChatMember tr cfg.ChannelID userID
  let tr := tr ++ [Event.getChatMember cfg.ChannelID userID member]
  match member with
  | MemberResult.error _ => some tr
  | MemberResult.ok status =>
    if status = "left".toList ∨ status = "kicked".toList then sendNotSub env cfg chatID tr
    else sendSuccess env cfg chatID tr

/-- The first condition of handleBotUpdate,
"update.Message != nil && update.Message.Chat.IsGroup()"; none is the
dereference of a nil Chat. -/
def fromGroup (update : Update) : Option Bool :=
  match update.Message with
  | none => some false
  | some message => message.Chat.map Chat.IsGroup

/-- The second condition of handleBotUpdate,
"update.Message != nil && update.Message.Command() == "start"". -/
def isStart (update : Update) : Bool :=
  match update.Message with
  | none => false
  | some message => message.Command == "start".toList

/-- The function handleBotUpdate. -/
def handleBotUpdate (env : Env) (cfg : Bot) (update : Update) (tr : List Event) :
    Option (List Event) :=
  (fromGroup update).bind fun inGroup =>
  if inGroup then some tr
  else if isStart update then
    (update.Message.bind fun message => message.Chat).bind fun chat =>
      sendWelcome env cfg chat.ID tr
  else
    match update.CallbackQuery with
    | none => some tr
    | some cq =>
      if cq.Data = "check_subscription".toList then handleCallback env cfg cq tr else some tr

/-! ### Notions used to state the properties of the handler -/

/-- The error is the platform's refusal to parse the markup, as sendMsg and
sendWelcome test it. -/
def isParseError (err : Option Str) : Bool :=
  match err with
  | some e => stringsContains e parseErrorText
  | none => false

/-- The first attempt of sendMsg: the translated text, parse mode MarkdownV2. -/
def formattedSend (msg : MessageConfig) (text : Str) : Chattable :=
  Chattable.message { msg with Text := text, ParseMode := ModeMarkdownV2 }

/-- The second attempt of sendMsg: the original text with its escaped line
breaks normalised, no parse mode. -/
def plainSend (msg : MessageConfig) : Chattable :=
  Chattable.message { msg with Text := normNewlines msg.Text, ParseMode := [] }

/-- The send attempts of one call of sendMsg in the trace tr, when text is the
translation of the message text: the formatted attempt, followed by the plain
one exactly when the first ends in a parse error. -/
def msgAttempts (env : Env) (msg : MessageConfig) (text : Str) (tr : List Event) : List Event :=
  Event.send (formattedSend msg text) (env.send tr (formattedSend msg text)) ::
    if isParseError (env.send tr (formattedSend msg text)) then
      [Event.send (plainSend msg)
        (env.send (tr ++ [Event.send (formattedSend msg text) (env.send tr (formattedSend msg text))])
          (plainSend msg))]
    else []

/-- The key of an object fetch. -/
def Event.fetchKey : Event → Option Str
  | Event.getObject key _ => some key
  | _ => none

/-- The key of an object fetch that succeeded. -/
def Event.fetchedOk : Event → Option Str
  | Event.getObject key none => some key
  | _ => none

/-- The document of a document send, whatever its outcome. -/
def Event.sentDocument : Event → Option DocumentConfig
  | Event.send (Chattable.document d) _ => some d
  | _ => none

/-- The event is a send of a text message. -/
def Event.isTextSend : Event → Bool
  | Event.send (Chattable.message _) _ => true
  | _ => false

/-- The event is a photo send that succeeded. -/
def Event.isPhotoSent : Event → Bool
  | Event.send (Chattable.photo _) none => true
  | _ => false

/-- The event is a listing of the object store. -/
def Event.isListing : Event → Bool
  | Event.listObjects _ _ _ => true
  | _ => false

/-- The reply markup of a sent message or photo. -/
def Event.replyMarkup : Event → Option Keyboard
  | Event.send (Chattable.message m) _ => m.ReplyMarkup
  | Event.send (Chattable.photo p) _ => p.ReplyMarkup
  | _ => none

/-- The document sendSuccess sends for an object key: the file is named by the
last part of the key split at the slashes, and reads the stream of the key. -/
def documentFor (chatID : Int) (key : Str) : DocumentConfig :=
  NewDocument chatID { Name := ((stringsSplit '/' key).getLast?).getD [], Reader := key }

/-- The listing sendSuccess makes first, as an event of the trace. -/
def listingEvent (env : Env) (cfg : Bot) (tr : List Event) : Event :=
  Event.listObjects (cfg.ID ++ "/docs/".toList)
    (env.listObjects tr (cfg.ID ++ "/docs/".toList)).1
    (env.listObjects tr (cfg.ID ++ "/docs/".toList)).2

/-- The trace once the callback is acknowledged and the membership query has
returned a status. -/
def membershipChecked (cfg : Bot) (cq : CallbackQuery) (sender : User) (status : Str)
    (tr : List Event) : List Event :=
  tr ++ [Event.answerCallback cq.ID [],
    Event.getChatMember cfg.ChannelID sender.ID (MemberResult.ok status)]

/-- What the loop of sendSuccess adds to the trace for the listed keys: every
key is fetched, in listing order, whatever happened to the keys before it; the
documents sent are, in order, those of the keys whose fetch succeeded; nothing
else is done. -/
def DeliveryOf (chatID : Int) (keys : List Str) (d : List Event) : Prop :=
  d.filterMap Event.fetchKey = keys ∧
  d.filterMap Event.sentDocument = (d.filterMap Event.fetchedOk).map (documentFor chatID) ∧
  ∀ e ∈ d, (e.fetchKey.isSome ∨ e.sentDocument.isSome)

/-- The event carries no keyboard, or the keyboard of the configuration. -/
def KeyboardOf (cfg : Bot) (e : Event) : Prop :=
  ∀ kb, e.replyMarkup = some kb → kb = subscribeKeyboard cfg

/-! ### Configurations, updates and environments of the examples -/

/-- A bot configuration for the examples. -/
def demoBot : Bot :=
  { ID := "b1".toList, ChannelID := -1001, ButtonText := "Check".toList,
    WelcomeMsg := "Hi *you*".toList, WelcomeImgKey := "b1/welcome.jpg".toList,
    NotSubMsg := "Subscribe first.".toList, SuccessMsg := "Thanks!".toList }

/-- An environment for the examples: the outcome of a send depends on what is
sent, the outcome of a fetch on the trace and the key; the membership query and
the listing always give the same result. -/
def demoEnv (sendErr : Chattable → Option Str) (member : MemberResult)
    (fetchErr : List Event → Str → Option Str) (listing : List Str × Option Str) : Env :=
  { send := fun _ c => sendErr c, getChatMember := fun _ _ _ => member,
    getObject := fetchErr, listObjects := fun _ _ => listing }

/-- The platform rejects every message or photo sent with a parse mode, and
accepts everything else. -/
def rejectFormatted : Chattable → Option Str
  | Chattable.message m =>
    if m.ParseMode = [] then none else some ("Bad Request: ".toList ++ parseErrorText)
  | Chattable.photo p =>
    if p.ParseMode = [] then none else some ("Bad Request: ".toList ++ parseErrorText)
  | Chattable.document _ => none

/-- A press of the subscription button in a private chat. -/
def privateCallback : Update :=
  { Message := none,
    CallbackQuery := some
      { ID := "cb1".toList, From := some { ID := 7 },
        Message := some { Chat := some { ID := 42, ChatType := "private".toList }, Command := [] },
        Data := "check_subscription".toList } }

/-- A press of the subscription button under a message in a group chat. -/
def groupCallback : Update :=
  { Message := none,
    CallbackQuery := some
      { ID := "cb2".toList, From := some { ID := 7 },
        Message := some { Chat := some { ID := -500, ChatType := "group".toList }, Command := [] },
        Data := "check_subscription".toList } }

/-- A start command in a group chat. -/
def groupStart : Update :=
  { Message := some { Chat := some { ID := -500, ChatType := "group".toList },
                      Command := "start".toList },
    CallbackQuery := none }

/-- A start command in a private chat. -/
def privateStart : Update :=
  { Message := some { Chat := some { ID := 42, ChatType := "private".toList },
                      Command := "start".toList },
    CallbackQuery := none }

/-- The two documents of the examples. -/
def demoKeys : List Str := ["b1/docs/a.pdf".toList, "b1/docs/b.pdf".toList]

/-- Every call succeeds; the user is a member; two documents are listed. -/
def envAllOk : Env :=
  demoEnv (fun _ => none) (MemberResult.ok "member".toList) (fun _ _ => none) (demoKeys, none)

/-- As envAllOk, but the fetch of a.pdf fails. -/
def envFetchFails : Env :=
  demoEnv (fun _ => none) (MemberResult.ok "member".toList)
    (fun _ key => if key = "b1/docs/a.pdf".toList then some "gone".toList else none)
    (demoKeys, none)

/-- Every call succeeds; no document is listed. -/
def envNoFiles : Env :=
  demoEnv (fun _ => none) (MemberResult.ok "member".toList) (fun _ _ => none) ([], none)

/-- The listing fails, though it returns a key with its error. -/
def envListFails : Env :=
  demoEnv (fun _ => none) (MemberResult.ok "member".toList) (fun _ _ => none)
    (demoKeys, some "timeout".toList)

/-- The welcome image cannot be fetched. -/
def envNoImage : Env :=
  demoEnv (fun _ => none) (MemberResult.ok "member".toList) (fun _ _ => some "gone".toList)
    (demoKeys, none)

/-- Photos are refused for a reason other than the markup. -/
def envPhotoRefused : Env :=
  demoEnv (fun c => match c with
      | Chattable.photo _ => some "Forbidden".toList
      | _ => none)
    (MemberResult.ok "member".toList) (fun _ _ => none) (demoKeys, none)

/-- Formatted sends are rejected, and only the first fetch succeeds. -/
def envRefetchFails : Env :=
  demoEnv rejectFormatted (MemberResult.ok "member".toList)
    (fun tr _ => if tr.isEmpty then none else some "gone".toList) (demoKeys, none)

/-- Formatted photos are rejected for their markup and unformatted photos are
refused; text messages are accepted. -/
def envPlainPhotoRefused : Env :=
  demoEnv (fun c => match c with
      | Chattable.photo p =>
        if p.ParseMode = [] then some "Forbidden".toList
        else some ("Bad Request: ".toList ++ parseErrorText)
      | _ => none)
    (MemberResult.ok "member".toList) (fun _ _ => none) (demoKeys, none)

/-- The platform rejects formatted sends; the user has left the channel. -/
def envRejecting : Env :=
  demoEnv rejectFormatted (MemberResult.ok "left".toList) (fun _ _ => none) (demoKeys, none)

/-- A press of a button whose data is spelled with a hyphen, in a private chat. -/
def hyphenCallback : Update :=
  { Message := none,
    CallbackQuery := some
      { ID := "cb3".toList, From := some { ID := 7 },
        Message := some { Chat := some { ID := 42, ChatType := "private".toList }, Command := [] },
        Data := "check-subscription".toList } }

/-- A press of the subscription button that carries no originating message. -/
def orphanCallback : Update :=
  { Message := none,
    CallbackQuery := some
      { ID := "cb4".toList, From := some { ID := 7 }, Message := none,
        Data := "check_subscription".toList } }

/-- A press of the subscription button that carries no sender. -/
def anonymousCallback : Update :=
  { Message := none,
    CallbackQuery := some
      { ID := "cb5".toList, From := none,
        Message := some { Chat := some { ID := 42, ChatType := "private".toList }, Command := [] },
        Data := "check_subscription".toList } }

/-- An ordinary text message in a private chat. -/
def privateText : Update :=
  { Message := some { Chat := some { ID := 42, ChatType := "private".toList }, Command := [] },
    CallbackQuery := none }

/-- The membership query fails. -/
def envQueryFails : Env :=
  demoEnv (fun _ => none) (MemberResult.error "timeout".toList) (fun _ _ => none) (demoKeys, none)

/-! ## Properties of the string helpers -/

theorem normNewlines_of_no_backslash (s : Str) (h : ∀ c ∈ s, c ≠ '\\') : normNewlines s = s := by
  induction s with
  | nil => rfl
  | cons c cs ih =>
    have hc : c ≠ '\\' := h c (List.mem_cons_self _ _)
    have ih' := ih fun d hd => h d (List.mem_cons_of_mem _ hd)
    cases cs with
    | nil => rfl
    | cons d rest => simp [normNewlines, hc, ih']

theorem mem_normNewlines (s : Str) : ∀ c ∈ normNewlines s, c ∈ s ∨ c = '\n' := by
  induction s using normNewlines.induct with
  | case1 => simp [normNewlines]
  | case2 c => simp [normNewlines]
  | case3 c d rest h ih =>
    intro x hx
    simp only [normNewlines, h, and_self, if_true, List.mem_cons] at hx
    rcases hx with hx | hx
    · exact Or.inr hx
    · rcases ih x hx with h1 | h1
      · exact Or.inl (by simp [h1])
      · exact Or.inr h1
  | case4 c d rest h ih =>
    intro x hx
    simp only [normNewlines, h, if_false, List.mem_cons] at hx
    rcases hx with hx | hx
    · exact Or.inl (by simp [hx])
    · rcases ih x hx with h1 | h1
      · exact Or.inl (List.mem_cons_of_mem _ h1)
      · exact Or.inr h1

theorem normNewlines_append (s t : Str) (h : ∀ r, t ≠ 'n' :: r) :
    normNewlines (s ++ t) = normNewlines s ++ normNewlines t := by
  induction s using normNewlines.induct with
  | case1 => simp [normNewlines]
  | case2 c =>
    cases t with
    | nil => simp [normNewlines]
    | cons d r =>
      have hd : d ≠ 'n' := fun e => h r (by rw [e])
      simp [normNewlines, hd]
  | case3 c d rest hcd ih => simp [normNewlines, hcd, ih]
  | case4 c d rest hcd ih =>
    have ih' : normNewlines (d :: (rest ++ t)) = normNewlines (d :: rest) ++ normNewlines t := by
      simpa using ih
    simp [normNewlines, hcd, ih']

theorem escPlain_of_no_reserved (s : Str) (h : ∀ c ∈ s, c ∉ plainEscapeClass) :
    escPlain s = s := by
  induction s with
  | nil => rfl
  | cons c cs ih =>
    have hc : c ∉ plainEscapeClass := h c (List.mem_cons_self _ _)
    simp [escPlain, hc, ih fun d hd => h d (List.mem_cons_of_mem _ hd)]

theorem escPlain_eq_flatMap (s : Str) :
    escPlain s = s.flatMap fun c => if c ∈ plainEscapeClass then ['\\', c] else [c] := by
  induction s with
  | nil => rfl
  | cons c cs ih =>
    by_cases hc : c ∈ plainEscapeClass
    · have hb : plainEscapeClass.contains c = true := by simpa using hc
      simp [escPlain, hb, hc, ih]
    · have hb : plainEscapeClass.contains c = false := by simpa using hc
      simp [escPlain, hb, hc, ih]

theorem escLinkURL_of_no_paren (s : Str) (h : ∀ c ∈ s, c ≠ ')') : escLinkURL s = s := by
  induction s with
  | nil => rfl
  | cons c cs ih =>
    simp [escLinkURL, h c (List.mem_cons_self _ _), ih fun d hd => h d (List.mem_cons_of_mem _ hd)]

/-! ## Properties of slicing -/

theorem slice_all (s : Str) : slice s 0 s.length = some s := by
  simp [slice]

/-! ## Properties of the matchers: what a match can be -/

theorem lit_ok {L lo : Nat} {d : Str} {k : Kont} {Q : List Int → Prop}
    (hk : KontOK L (lo + d.length) k Q) : KontOK L lo (lit d k) Q := by
  intro j s m hj hL h
  unfold lit at h
  split at h
  · rename_i hp
    obtain ⟨r, rfl⟩ := List.isPrefixOf_iff_prefix.mp hp
    simp only [List.drop_left] at h
    refine hk _ _ m (by omega) ?_ h
    simp only [List.length_append] at hL
    omega
  · exact absurd h (by simp)

theorem one_ok {L lo : Nat} {p : Char → Bool} {k : Kont} {Q : List Int → Prop}
    (hk : KontOK L (lo + 1) k Q) : KontOK L lo (one p k) Q := by
  intro j s m hj hL h
  cases s with
  | nil => simp [one] at h
  | cons c cs =>
    simp only [one] at h
    split at h
    · exact hk _ _ m (by omega) (by simp only [List.length_cons] at hL; omega) h
    · exact absurd h (by simp)

theorem starLazy_ok {L lo : Nat} {p : Char → Bool} {k : Kont} {Q : List Int → Prop}
    (hk : KontOK L lo k Q) : KontOK L lo (starLazy p k) Q := by
  intro j s
  induction s generalizing j with
  | nil => intro m hj hL h; exact hk j [] m hj hL (by simpa [starLazy] using h)
  | cons c cs ih =>
    intro m hj hL h
    simp only [starLazy] at h
    split at h
    · rename_i m1 h1
      cases h
      exact hk j _ _ hj hL h1
    · split at h
      · exact ih (j + 1) m (by omega) (by simp only [List.length_cons] at hL; omega) h
      · exact absurd h (by simp)

theorem starGreedy_ok {L lo : Nat} {p : Char → Bool} {k : Kont} {Q : List Int → Prop}
    (hk : KontOK L lo k Q) : KontOK L lo (starGreedy p k) Q := by
  intro j s
  induction s generalizing j with
  | nil => intro m hj hL h; exact hk j [] m hj hL (by simpa [starGreedy] using h)
  | cons c cs ih =>
    intro m hj hL h
    simp only [starGreedy] at h
    split at h
    · split at h
      · rename_i m1 h1
        cases h
        exact ih (j + 1) _ (by omega) (by simp only [List.length_cons] at hL; omega) h1
      · exact hk j _ _ hj hL h
    · exact hk j _ _ hj hL h

theorem fencedAlt_valid (i : Nat) (s : Str) (m : List Int) (h : fencedAlt i s = some m) :
    ValidCaps i (i + s.length) m := by
  refine lit_ok (Q := ValidCaps i (i + s.length)) ?_ i s m le_rfl rfl h
  apply starLazy_ok
  apply lit_ok
  intro e s1 m1 he hL h1
  simp only [Option.some.injEq] at h1
  subst h1
  have h3 : "```".toList.length = 3 := rfl
  rw [h3] at he
  exact ⟨⟨e, by omega, by omega, Or.inl ⟨1, i, e, by omega, by omega, by omega, by omega,
    by omega, rfl⟩⟩, e, 1, i, e, by omega, by omega, rfl⟩

theorem inlineAlt_valid (i : Nat) (s : Str) (m : List Int) (h : inlineAlt i s = some m) :
    ValidCaps i (i + s.length) m := by
  refine lit_ok (Q := ValidCaps i (i + s.length)) ?_ i s m le_rfl rfl h
  apply one_ok
  apply starGreedy_ok
  apply lit_ok
  intro e s1 m1 he hL h1
  simp only [Option.some.injEq] at h1
  subst h1
  have h3 : "`".toList.length = 1 := rfl
  rw [h3] at he
  exact ⟨⟨e, by omega, by omega, Or.inl ⟨2, i, e, by omega, by omega, by omega, by omega,
    by omega, rfl⟩⟩, e, 2, i, e, by omega, by omega, rfl⟩

theorem emphAlt_valid (d : Str) (g : Nat) (hg : 1 ≤ g ∧ g ≤ 7) (i : Nat) (s : Str)
    (m : List Int) (h : emphAlt d g i s = some m) : ValidCaps i (i + s.length) m := by
  refine lit_ok (Q := ValidCaps i (i + s.length)) ?_ i s m le_rfl rfl h
  intro a s1 m1 ha hL1 h1
  refine one_ok ?_ a s1 m1 le_rfl hL1 h1
  apply starLazy_ok
  intro b s2 m2 hb hL2 h2
  refine lit_ok ?_ b s2 m2 le_rfl hL2 h2
  intro e s3 m3 he hL3 h3
  simp only [Option.some.injEq] at h3
  subst h3
  exact ⟨⟨e, by omega, by omega, Or.inl ⟨g, a, b, hg.1, hg.2, by omega, by omega, by omega,
    rfl⟩⟩, e, g, a, b, hg.1, hg.2, rfl⟩

theorem italicAlt_valid (x : Char) (g : Nat) (hg : 1 ≤ g ∧ g ≤ 7) (i : Nat) (s : Str)
    (m : List Int) (h : italicAlt x g i s = some m) : ValidCaps i (i + s.length) m := by
  refine lit_ok (Q := ValidCaps i (i + s.length)) ?_ i s m le_rfl rfl h
  intro a s1 m1 ha hL1 h1
  refine one_ok ?_ a s1 m1 le_rfl hL1 h1
  apply starLazy_ok
  intro b s2 m2 hb hL2 h2
  refine lit_ok ?_ b s2 m2 le_rfl hL2 h2
  intro e s3 m3 he hL3 h3
  simp only [Option.some.injEq] at h3
  subst h3
  exact ⟨⟨e, by omega, by omega, Or.inl ⟨g, a, b, hg.1, hg.2, by omega, by omega, by omega,
    rfl⟩⟩, e, g, a, b, hg.1, hg.2, rfl⟩

theorem linkAlt_valid (i : Nat) (s : Str) (m : List Int) (h : linkAlt i s = some m) :
    ValidMatch i (i + s.length) m := by
  refine lit_ok (Q := ValidMatch i (i + s.length)) ?_ i s m le_rfl rfl h
  intro a s1 m1 ha hL1 h1
  refine starGreedy_ok ?_ a s1 m1 le_rfl hL1 h1
  intro b s2 m2 hb hL2 h2
  refine lit_ok ?_ b s2 m2 le_rfl hL2 h2
  intro c s3 m3 hc hL3 h3
  refine starGreedy_ok ?_ c s3 m3 le_rfl hL3 h3
  intro d s4 m4 hd hL4 h4
  refine lit_ok ?_ d s4 m4 le_rfl hL4 h4
  intro e s5 m5 he hL5 h5
  simp only [Option.some.injEq] at h5
  subst h5
  have h1 : "[".toList.length = 1 := rfl
  have h2 : "](".toList.length = 2 := rfl
  have h3 : ")".toList.length = 1 := rfl
  rw [h1] at ha
  rw [h2] at hc
  rw [h3] at he
  exact ⟨e, by omega, by omega, Or.inr ⟨a, b, c, d, by omega, by omega, by omega, by omega,
    by omega, rfl⟩⟩

theorem alt_some {a b : Nat → Str → Option (List Int)} {i : Nat} {s : Str} {m : List Int}
    (h : alt a b i s = some m) : a i s = some m ∨ b i s = some m := by
  unfold alt at h
  split at h
  · rename_i m1 h1
    exact Or.inl (h1.trans h)
  · exact Or.inr h

theorem mdPattern_valid (i : Nat) (s : Str) (m : List Int) (h : mdPattern i s = some m) :
    ValidMatch i (i + s.length) m := by
  unfold mdPattern at h
  rcases alt_some h with h | h
  · exact (fencedAlt_valid i s m h).1
  rcases alt_some h with h | h
  · exact (inlineAlt_valid i s m h).1
  rcases alt_some h with h | h
  · exact (emphAlt_valid _ 3 (by omega) i s m h).1
  rcases alt_some h with h | h
  · exact (emphAlt_valid _ 4 (by omega) i s m h).1
  rcases alt_some h with h | h
  · exact (emphAlt_valid _ 5 (by omega) i s m h).1
  rcases alt_some h with h | h
  · exact (italicAlt_valid _ 6 (by omega) i s m h).1
  rcases alt_some h with h | h
  · exact (italicAlt_valid _ 7 (by omega) i s m h).1
  · exact linkAlt_valid i s m h

theorem mdPattern_nil (i : Nat) : mdPattern i [] = none := by
  cases h : mdPattern i [] with
  | none => rfl
  | some m =>
    obtain ⟨e, h1, h2, _⟩ := mdPattern_valid i [] m h
    simp only [List.length_nil] at h2
    omega

theorem searchFrom_valid (pos : Nat) (s : Str) (m : List Int)
    (h : searchFrom mdPattern pos s = some m) :
    ∃ i, pos ≤ i ∧ ValidMatch i (pos + s.length) m := by
  induction s generalizing pos with
  | nil =>
    simp only [searchFrom] at h
    exact ⟨pos, le_rfl, mdPattern_valid pos [] m h⟩
  | cons c cs ih =>
    simp only [searchFrom] at h
    split at h
    · rename_i m1 h1
      cases h
      exact ⟨pos, le_rfl, mdPattern_valid pos _ _ h1⟩
    · obtain ⟨i, hi, hv⟩ := ih (pos + 1) h
      refine ⟨i, by omega, ?_⟩
      have e : pos + (c :: cs).length = pos + 1 + cs.length := by
        simp only [List.length_cons]; omega
      rw [e]; exact hv

/-! ## The translator never faults -/

theorem wrapped_caps (input : Str) (m : List Int) (k : Nat) (l r : Str) (a b : Nat)
    (h0 : idx m k = some (a : Int)) (h1 : idx m (k + 1) = some (b : Int)) (hab : a ≤ b)
    (hb : b ≤ input.length) :
    wrapped input m k l r = some (l ++ escPlain ((input.drop a).take (b - a)) ++ r) := by
  have h2 : (a : Int) ≤ (b : Int) := by omega
  have h3 : (b : Int) ≤ (input.length : Int) := by omega
  simp [wrapped, h0, h1, slice, h2, h3]

theorem renderMatch_valid (input : Str) (i : Nat) (m : List Int)
    (hv : ValidMatch i input.length m) :
    ∃ e : Nat, i < e ∧ e ≤ input.length ∧ idx m 0 = some (i : Int) ∧ idx m 1 = some (e : Int) ∧
      m.getD 1 0 = (e : Int) ∧ ∃ r, renderMatch input m i e = some r := by
  obtain ⟨e, hie, heL, hm⟩ := hv
  refine ⟨e, hie, heL, ?_⟩
  have hsl : slice input (i : Int) (e : Int) = some ((input.drop i).take (e - i)) := by
    have h2 : (i : Int) ≤ (e : Int) := by omega
    have h3 : (e : Int) ≤ (input.length : Int) := by omega
    simp [slice, h2, h3]
  rcases hm with ⟨g, a, b, hg1, hg7, hia, hab, hbe, rfl⟩ | ⟨a, b, c, d, hia, hab, hbc, hcd, hde, rfl⟩
  · have hbL : b ≤ input.length := by omega
    have hg : g = 1 ∨ g = 2 ∨ g = 3 ∨ g = 4 ∨ g = 5 ∨ g = 6 ∨ g = 7 := by omega
    rcases hg with rfl | rfl | rfl | rfl | rfl | rfl | rfl
    · refine ⟨rfl, rfl, rfl, ?_⟩
      simp [renderMatch, renderCode, idx, caps, List.range, List.range.loop, hsl]
    · refine ⟨rfl, rfl, rfl, ?_⟩
      simp [renderMatch, renderCode, idx, caps, List.range, List.range.loop, hsl]
    · refine ⟨rfl, rfl, rfl, ?_⟩
      have hw := wrapped_caps input (caps i e 3 a b) 6 "*_".toList "_*".toList a b rfl rfl hab hbL
      simp [renderMatch, renderCode, renderCase, idx, caps, List.range, List.range.loop] at hw ⊢
      simp [hw]
    · refine ⟨rfl, rfl, rfl, ?_⟩
      have hw := wrapped_caps input (caps i e 4 a b) 8 ['*'] ['*'] a b rfl rfl hab hbL
      simp [renderMatch, renderCode, renderCase, idx, caps, List.range, List.range.loop] at hw ⊢
      simp [hw]
    · refine ⟨rfl, rfl, rfl, ?_⟩
      have hw := wrapped_caps input (caps i e 5 a b) 10 ['~'] ['~'] a b rfl rfl hab hbL
      simp [renderMatch, renderCode, renderCase, idx, caps, List.range, List.range.loop] at hw ⊢
      simp [hw]
    · refine ⟨rfl, rfl, rfl, ?_⟩
      have hw := wrapped_caps input (caps i e 6 a b) 12 ['_'] ['_'] a b rfl rfl hab hbL
      simp [renderMatch, renderCode, renderCase, idx, caps, List.range, List.range.loop] at hw ⊢
      simp [hw]
    · refine ⟨rfl, rfl, rfl, ?_⟩
      have hw := wrapped_caps input (caps i e 7 a b) 14 ['_'] ['_'] a b rfl rfl hab hbL
      simp [renderMatch, renderCode, renderCase, idx, caps, List.range, List.range.loop] at hw ⊢
      simp [hw]
  · refine ⟨rfl, rfl, rfl, ?_⟩
    have h1 : (a : Int) ≤ (b : Int) := by omega
    have h2 : (b : Int) ≤ (input.length : Int) := by omega
    have h3 : (c : Int) ≤ (d : Int) := by omega
    have h4 : (d : Int) ≤ (input.length : Int) := by omega
    simp [renderMatch, renderCode, renderCase, renderLink, idx, capsLink, slice, h1, h2, h3, h4]

theorem translateLoop_allMatches (input : Str) (n : Nat) :
    ∀ (pos : Nat) (b : Str), pos ≤ input.length →
      ∃ out, translateLoop input (allMatches mdPattern input n pos) b pos = some out := by
  have htail : ∀ (pos : Nat) (b : Str), pos ≤ input.length →
      ∃ out, translateLoop input [] b pos = some out := by
    intro pos b hpos
    have h1 : (pos : Int) ≤ (input.length : Int) := by omega
    simp [translateLoop, slice, h1]
  induction n with
  | zero => intro pos b hpos; exact htail pos b hpos
  | succ n ih =>
    intro pos b hpos
    simp only [allMatches]
    split
    · exact htail pos b hpos
    · rename_i m hm
      obtain ⟨i, hi, hv⟩ := searchFrom_valid pos _ m hm
      have hlen : pos + (List.drop pos input).length = input.length := by
        simp only [List.length_drop]; omega
      rw [hlen] at hv
      obtain ⟨e, hie, heL, h0, h1, hget, r, hr⟩ := renderMatch_valid input i m hv
      have hpre : slice input (pos : Int) (i : Int) = some ((input.drop pos).take (i - pos)) := by
        have h2 : (pos : Int) ≤ (i : Int) := by omega
        have h3 : (i : Int) ≤ (input.length : Int) := by omega
        simp [slice, h2, h3]
      simp only [translateLoop, h0, h1, Option.some_bind, hpre, hr, hget, Int.toNat_ofNat]
      exact ih e _ heL

/-- The translator returns a string for every input: no index or slice
expression of mdToTelegramV2 is ever out of range. -/
theorem mdToTelegramV2_isSome (input : Str) : ∃ out, mdToTelegramV2 input = some out := by
  have h := translateLoop_allMatches (normNewlines input) ((normNewlines input).length + 1) 0 []
    (Nat.zero_le _)
  simpa [mdToTelegramV2, findAllStringSubmatchIndex] using h

/-! ## Properties of the matchers: what does match -/

theorem lit_append (d : Str) (k : Kont) (pos : Nat) (s : Str) :
    lit d k pos (d ++ s) = k (pos + d.length) s := by
  have h : d.isPrefixOf (d ++ s) = true := List.isPrefixOf_iff_prefix.mpr (List.prefix_append d s)
  simp [lit, h]

theorem lit_cons_ne (x c : Char) (d : Str) (k : Kont) (pos : Nat) (s : Str) (h : c ≠ x) :
    lit (x :: d) k pos (c :: s) = none := by
  have hx : ¬ x = c := fun e => h e.symm
  simp [lit, List.isPrefixOf, hx]

theorem starLazy_of_some (p : Char → Bool) (k : Kont) (pos : Nat) (s : Str) (m : List Int)
    (h : k pos s = some m) : starLazy p k pos s = some m := by
  cases s with
  | nil => simpa [starLazy] using h
  | cons c cs => simp [starLazy, h]

theorem starLazy_skip (p : Char → Bool) (k : Kont) (x rest : Str) (hp : ∀ c ∈ x, p c = true)
    (hk : ∀ j c z, c ∈ x → k j (c :: z) = none) :
    ∀ pos, starLazy p k pos (x ++ rest) = starLazy p k (pos + x.length) rest := by
  induction x with
  | nil => intro pos; simp
  | cons c cs ih =>
    intro pos
    have h1 : k pos (c :: (cs ++ rest)) = none := hk pos c _ (List.mem_cons_self _ _)
    have h2 : p c = true := hp c (List.mem_cons_self _ _)
    have ih' := ih (fun d hd => hp d (List.mem_cons_of_mem _ hd))
      (fun j d z hd => hk j d z (List.mem_cons_of_mem _ hd)) (pos + 1)
    have h3 : pos + 1 + cs.length = pos + (cs.length + 1) := by omega
    have e1 : starLazy p k pos (c :: (cs ++ rest)) = starLazy p k (pos + 1) (cs ++ rest) := by
      rw [starLazy, h1]
      simp only [h2, if_true]
    rw [List.cons_append, e1, ih', h3, List.length_cons]

theorem starGreedy_skip (p : Char → Bool) (k : Kont) (x rest : Str) (m : List Int)
    (hp : ∀ c ∈ x, p c = true) (hrest : ∀ c r, rest = c :: r → p c = false) :
    ∀ pos, k (pos + x.length) rest = some m → starGreedy p k pos (x ++ rest) = some m := by
  induction x with
  | nil =>
    intro pos h
    simp only [List.length_nil, Nat.add_zero] at h
    cases rest with
    | nil => simpa [starGreedy] using h
    | cons c r => simp [starGreedy, hrest c r rfl, h]
  | cons c cs ih =>
    intro pos h
    have h2 : p c = true := hp c (List.mem_cons_self _ _)
    have h3 : pos + 1 + cs.length = pos + (c :: cs).length := by
      simp only [List.length_cons]; omega
    have ih' := ih (fun d hd => hp d (List.mem_cons_of_mem _ hd)) (pos + 1) (by rw [h3]; exact h)
    simp [starGreedy, h2, ih']

theorem fencedAlt_cons_ne (i : Nat) (c : Char) (s : Str) (h : c ≠ '\x60') :
    fencedAlt i (c :: s) = none :=
  lit_cons_ne _ c _ _ i s h

theorem inlineAlt_cons_ne (i : Nat) (c : Char) (s : Str) (h : c ≠ '\x60') :
    inlineAlt i (c :: s) = none :=
  lit_cons_ne _ c _ _ i s h

theorem emphAlt_cons_ne (x : Char) (d : Str) (g i : Nat) (c : Char) (s : Str) (h : c ≠ x) :
    emphAlt (x :: d) g i (c :: s) = none :=
  lit_cons_ne _ c _ _ i s h

theorem italicAlt_cons_ne (x : Char) (g i : Nat) (c : Char) (s : Str) (h : c ≠ x) :
    italicAlt x g i (c :: s) = none :=
  lit_cons_ne _ c _ _ i s h

theorem linkAlt_cons_ne (i : Nat) (c : Char) (s : Str) (h : c ≠ '[') :
    linkAlt i (c :: s) = none :=
  lit_cons_ne _ c _ _ i s h

theorem mdPattern_cons_none (i : Nat) (c : Char) (s : Str) (h : c ∉ markupOpeners) :
    mdPattern i (c :: s) = none := by
  simp only [markupOpeners, List.mem_cons, List.mem_singleton, List.not_mem_nil, or_false,
    not_or] at h
  obtain ⟨h1, h2, h3, h4, h5⟩ := h
  have e3 : "***".toList = '*' :: "**".toList := rfl
  have e2 : "**".toList = '*' :: "*".toList := rfl
  have e5 : "~~".toList = '~' :: "~".toList := rfl
  simp only [mdPattern, alt, fencedAlt_cons_ne i c s h1, inlineAlt_cons_ne i c s h1, e3,
    emphAlt_cons_ne '*' _ 3 i c s h2, e2, emphAlt_cons_ne '*' _ 4 i c s h2, e5,
    emphAlt_cons_ne '~' _ 5 i c s h4, italicAlt_cons_ne '*' 6 i c s h2,
    italicAlt_cons_ne '_' 7 i c s h3, linkAlt_cons_ne i c s h5]

theorem searchFrom_none (s : Str) :
    ∀ pos, (∀ j, mdPattern (pos + j) (s.drop j) = none) → searchFrom mdPattern pos s = none := by
  induction s with
  | nil => intro pos _; simp [searchFrom, mdPattern_nil]
  | cons c cs ih =>
    intro pos h
    have h0 : mdPattern pos (c :: cs) = none := by simpa using h 0
    have ih' := ih (pos + 1) fun j => by
      have := h (j + 1)
      simp only [List.drop_succ_cons] at this
      rw [show pos + 1 + j = pos + (j + 1) by omega]
      exact this
    simp [searchFrom, h0, ih']

theorem findAll_nil (s : Str) (h : ∀ j, mdPattern j (s.drop j) = none) :
    findAllStringSubmatchIndex mdPattern s = [] := by
  have h1 : searchFrom mdPattern 0 s = none := searchFrom_none s 0 (by simpa using h)
  simp [findAllStringSubmatchIndex, allMatches, h1]

theorem allMatches_at_end (s : Str) (n : Nat) : allMatches mdPattern s n s.length = [] := by
  cases n with
  | zero => rfl
  | succ n => simp [allMatches, searchFrom, mdPattern_nil]

theorem findAll_single (s : Str) (m : List Int) (h : mdPattern 0 s = some m)
    (he : m.getD 1 0 = (s.length : Int)) : findAllStringSubmatchIndex mdPattern s = [m] := by
  have h1 : searchFrom mdPattern 0 s = some m := by
    cases s with
    | nil => simp [mdPattern_nil] at h
    | cons c cs => simp [searchFrom, h]
  simp only [findAllStringSubmatchIndex, allMatches, List.drop_zero, h1, he, Int.toNat_ofNat,
    allMatches_at_end]

theorem emphAlt_match (x : Char) (d : Str) (g i : Nat) (c : Char) (body rest : Str)
    (hc : c ≠ '\n') (hbody : ∀ y ∈ body, y ≠ '\n' ∧ y ≠ x) :
    emphAlt (x :: d) g i ((x :: d) ++ c :: body ++ (x :: d) ++ rest) =
      some (caps i (i + (x :: d).length + 1 + body.length + (x :: d).length) g
        (i + (x :: d).length) (i + (x :: d).length + 1 + body.length)) := by
  unfold emphAlt
  rw [List.append_assoc, List.append_assoc, lit_append]
  have hdot : dot c = true := by simp [dot, hc]
  simp only [List.cons_append, one, hdot, if_true]
  rw [← List.cons_append, starLazy_skip dot _ body _ (fun y hy => by simp [dot, (hbody y hy).1])
    (fun j y z hy => lit_cons_ne _ y _ _ j z (hbody y hy).2)]
  apply starLazy_of_some
  rw [lit_append]

theorem italicAlt_match (x : Char) (g i : Nat) (c : Char) (body rest : Str)
    (hc : c ≠ x ∧ c ≠ '\n') (hbody : ∀ y ∈ body, y ≠ x ∧ y ≠ '\n') :
    italicAlt x g i ([x] ++ c :: body ++ [x] ++ rest) =
      some (caps i (i + 1 + 1 + body.length + 1) g (i + 1) (i + 1 + 1 + body.length)) := by
  unfold italicAlt
  rw [List.append_assoc, List.append_assoc, lit_append]
  have hcl : notCharNL x c = true := by simp [notCharNL, hc.1, hc.2]
  simp only [List.cons_append, one, hcl, if_true]
  rw [starLazy_skip (notCharNL x) _ body _
    (fun y hy => by simp [notCharNL, (hbody y hy).1, (hbody y hy).2])
    (fun j y z hy => lit_cons_ne _ y _ _ j z (hbody y hy).1)]
  apply starLazy_of_some
  exact lit_append [x] _ _ rest

theorem fencedAlt_match (i : Nat) (body rest : Str) (hbody : ∀ y ∈ body, y ≠ '\x60') :
    fencedAlt i ("```".toList ++ body ++ "```".toList ++ rest) =
      some (caps i (i + 3 + body.length + 3) 1 i (i + 3 + body.length + 3)) := by
  unfold fencedAlt
  have hk : ∀ (j : Nat) (y : Char) (z : Str), y ∈ body →
      lit "```".toList (fun e _ => some (caps i e 1 i e)) j (y :: z) = none :=
    fun j y z hy => lit_cons_ne '\x60' y "``".toList _ j z (hbody y hy)
  rw [List.append_assoc, List.append_assoc, lit_append,
    starLazy_skip anyChar _ body _ (fun _ _ => rfl) hk]
  apply starLazy_of_some
  rw [lit_append]
  rfl

theorem inlineAlt_match (i : Nat) (c : Char) (body rest : Str)
    (hc : c ≠ '\x60' ∧ c ≠ '\n') (hbody : ∀ y ∈ body, y ≠ '\x60' ∧ y ≠ '\n') :
    inlineAlt i ("`".toList ++ c :: body ++ "`".toList ++ rest) =
      some (caps i (i + 1 + 1 + body.length + 1) 2 i (i + 1 + 1 + body.length + 1)) := by
  unfold inlineAlt
  rw [List.append_assoc, List.append_assoc, lit_append]
  have hcl : notCharNL '\x60' c = true := by simp [notCharNL, hc.1, hc.2]
  simp only [List.cons_append, one, hcl, if_true]
  apply starGreedy_skip (notCharNL '\x60') _ body _ _
    (fun y hy => by simp [notCharNL, (hbody y hy).1, (hbody y hy).2])
  · intro y r hy
    have : y = '\x60' := by
      have h1 : "`".toList ++ rest = '\x60' :: rest := rfl
      rw [h1] at hy
      exact (List.cons.inj hy).1.symm
    simp [notCharNL, this]
  · rw [lit_append]
    rfl

theorem translate_token (input s : Str) (m : List Int) (tok : Str)
    (hn : normNewlines input = s) (hm : mdPattern 0 s = some m)
    (h0 : idx m 0 = some 0) (h1 : idx m 1 = some (s.length : Int))
    (hr : renderMatch s m 0 s.length = some tok) : mdToTelegramV2 input = some tok := by
  have he : m.getD 1 0 = (s.length : Int) := by
    simp only [idx] at h1
    simp [List.getD, h1]
  simp [mdToTelegramV2, hn, findAll_single s m hm he, translateLoop, h0, h1, slice, hr, escPlain]

/-! ## One markup token spanning the whole input -/

theorem drop_take_mid (p x q : Str) :
    ((p ++ x ++ q).drop p.length).take (p.length + x.length - p.length) = x := by
  simp

theorem reserved_ne (y : Char) (hy : y ∉ plainEscapeClass) :
    y ≠ '*' ∧ y ≠ '_' ∧ y ≠ '~' ∧ y ≠ '\\' ∧ y ≠ '\x60' := by
  simp only [plainEscapeClass, List.mem_cons, List.mem_singleton, List.not_mem_nil, or_false,
    not_or] at hy
  tauto

theorem caps_idx (s e g a b : Nat) (hg : 1 ≤ g ∧ g ≤ 7) :
    idx (caps s e g a b) 0 = some (s : Int) ∧ idx (caps s e g a b) 1 = some (e : Int) ∧
    idx (caps s e g a b) (2 * g) = some (a : Int) ∧
    idx (caps s e g a b) (2 * g + 1) = some (b : Int) := by
  obtain ⟨h1, h7⟩ := hg
  have hg : g = 1 ∨ g = 2 ∨ g = 3 ∨ g = 4 ∨ g = 5 ∨ g = 6 ∨ g = 7 := by omega
  rcases hg with rfl | rfl | rfl | rfl | rfl | rfl | rfl <;> exact ⟨rfl, rfl, rfl, rfl⟩

theorem renderMatch_caps3 (s : Str) (i e a b : Nat) :
    renderMatch s (caps i e 3 a b) i e =
      wrapped s (caps i e 3 a b) (2 * 3) "*_".toList "_*".toList := by
  simp [renderMatch, renderCode, renderCase, idx, caps, List.range, List.range.loop]

theorem renderMatch_caps4 (s : Str) (i e a b : Nat) :
    renderMatch s (caps i e 4 a b) i e = wrapped s (caps i e 4 a b) (2 * 4) ['*'] ['*'] := by
  simp [renderMatch, renderCode, renderCase, idx, caps, List.range, List.range.loop]

theorem renderMatch_caps5 (s : Str) (i e a b : Nat) :
    renderMatch s (caps i e 5 a b) i e = wrapped s (caps i e 5 a b) (2 * 5) ['~'] ['~'] := by
  simp [renderMatch, renderCode, renderCase, idx, caps, List.range, List.range.loop]

theorem renderMatch_caps6 (s : Str) (i e a b : Nat) :
    renderMatch s (caps i e 6 a b) i e = wrapped s (caps i e 6 a b) (2 * 6) ['_'] ['_'] := by
  simp [renderMatch, renderCode, renderCase, idx, caps, List.range, List.range.loop]

theorem renderMatch_caps7 (s : Str) (i e a b : Nat) :
    renderMatch s (caps i e 7 a b) i e = wrapped s (caps i e 7 a b) (2 * 7) ['_'] ['_'] := by
  simp [renderMatch, renderCode, renderCase, idx, caps, List.range, List.range.loop]

theorem translate_emph (input p x q l r : Str) (g : Nat) (m : List Int)
    (hn : normNewlines input = p ++ x ++ q) (hm : mdPattern 0 (p ++ x ++ q) = some m)
    (hcaps : m = caps 0 (p.length + x.length + q.length) g p.length (p.length + x.length))
    (hr : renderMatch (p ++ x ++ q) m 0 (p.length + x.length + q.length : Nat) =
      wrapped (p ++ x ++ q) m (2 * g) l r)
    (hg : 1 ≤ g ∧ g ≤ 7) : mdToTelegramV2 input = some (l ++ escPlain x ++ r) := by
  subst hcaps
  obtain ⟨h0, h1, h2, h3⟩ :=
    caps_idx 0 (p.length + x.length + q.length) g p.length (p.length + x.length) hg
  have hlen : (p ++ x ++ q).length = p.length + x.length + q.length := by
    simp only [List.length_append]
  refine translate_token input (p ++ x ++ q) _ _ hn hm h0 (by rw [hlen]; exact h1) ?_
  rw [hlen, hr, wrapped_caps (p ++ x ++ q) _ (2 * g) l r p.length (p.length + x.length) h2 h3
    (by omega) (by rw [hlen]; omega), drop_take_mid]

theorem normNewlines_cons_ne (y : Char) (s : Str) (hy : y ≠ '\\') :
    normNewlines (y :: s) = y :: normNewlines s := by
  cases s with
  | nil => rfl
  | cons z r => simp [normNewlines, hy]

theorem normNewlines_append_left (d t : Str) (hd : ∀ y ∈ d, y ≠ '\\') :
    normNewlines (d ++ t) = d ++ normNewlines t := by
  induction d with
  | nil => rfl
  | cons y d ih =>
    rw [List.cons_append, normNewlines_cons_ne y _ (hd y (List.mem_cons_self _ _)),
      ih fun z hz => hd z (List.mem_cons_of_mem _ hz), List.cons_append]

theorem normNewlines_of_no_pair (s : Str) (h : ¬ "\\n".toList <:+: s) : normNewlines s = s := by
  induction s using normNewlines.induct with
  | case1 => rfl
  | case2 c => rfl
  | case3 c d rest hcd ih =>
    exfalso
    apply h
    obtain ⟨rfl, rfl⟩ := hcd
    exact ⟨[], rest, rfl⟩
  | case4 c d rest hcd ih =>
    have ih' := ih fun hin => h (by
      obtain ⟨u, v, huv⟩ := hin
      exact ⟨c :: u, v, by simp [← huv]⟩)
    simp only [normNewlines, hcd, if_false, ih']

theorem norm_wrapped (d x : Str) (hd : ∀ y ∈ d, y ≠ '\\') (hx : ∀ y ∈ x, y ≠ '\\') :
    normNewlines (d ++ x ++ d) = d ++ x ++ d := by
  apply normNewlines_of_no_backslash
  intro y hy
  simp only [List.mem_append] at hy
  rcases hy with (hy | hy) | hy
  · exact hd y hy
  · exact hx y hy
  · exact hd y hy

theorem translate_bold (c : Char) (body : Str)
    (hx : ∀ y ∈ c :: body, y ∉ plainEscapeClass ∧ y ≠ '\n') :
    mdToTelegramV2 ("**".toList ++ c :: body ++ "**".toList) =
      some ("*".toList ++ c :: body ++ "*".toList) := by
  have hc := hx c (List.mem_cons_self _ _)
  have hb : ∀ y ∈ body, y ∉ plainEscapeClass ∧ y ≠ '\n' :=
    fun y hy => hx y (List.mem_cons_of_mem _ hy)
  have hesc : escPlain (c :: body) = c :: body := escPlain_of_no_reserved _ fun y hy => (hx y hy).1
  have hnorm := norm_wrapped "**".toList (c :: body) (by decide)
    fun y hy => (reserved_ne y (hx y hy).1).2.2.2.1
  have h1 : fencedAlt 0 ("**".toList ++ c :: body ++ "**".toList) = none :=
    fencedAlt_cons_ne 0 '*' _ (by decide)
  have h2 : inlineAlt 0 ("**".toList ++ c :: body ++ "**".toList) = none :=
    inlineAlt_cons_ne 0 '*' _ (by decide)
  have h3 : emphAlt "***".toList 3 0 ("**".toList ++ c :: body ++ "**".toList) = none := by
    have e : "**".toList ++ c :: body ++ "**".toList = '*' :: '*' :: c :: (body ++ "**".toList) :=
      rfl
    have hcs : ¬ '*' = c := fun e => (reserved_ne c hc.1).1 e.symm
    have e3 : "***".toList = ['*', '*', '*'] := rfl
    rw [e]
    simp [emphAlt, lit, e3, List.isPrefixOf, hcs]
  have h4 : emphAlt "**".toList 4 0 ("**".toList ++ c :: body ++ "**".toList) =
      some (caps 0 (0 + 2 + 1 + body.length + 2) 4 (0 + 2) (0 + 2 + 1 + body.length)) := by
    have := emphAlt_match '*' ['*'] 4 0 c body [] hc.2
      (fun y hy => ⟨(hb y hy).2, (reserved_ne y (hb y hy).1).1⟩)
    rw [List.append_nil] at this
    exact this
  have hm : mdPattern 0 ("**".toList ++ c :: body ++ "**".toList) = some
      (caps 0 (0 + 2 + 1 + body.length + 2) 4 (0 + 2) (0 + 2 + 1 + body.length)) := by
    simp only [mdPattern, alt, h1, h2, h3, h4]
  have := translate_emph _ "**".toList (c :: body) "**".toList ['*'] ['*'] 4 _ hnorm hm
    (by congr 1 <;> simp <;> omega) (renderMatch_caps4 _ _ _ _ _) (by omega)
  rw [hesc] at this
  exact this

theorem translate_boldItalic (c : Char) (body : Str)
    (hx : ∀ y ∈ c :: body, y ∉ plainEscapeClass ∧ y ≠ '\n') :
    mdToTelegramV2 ("***".toList ++ c :: body ++ "***".toList) =
      some ("*_".toList ++ c :: body ++ "_*".toList) := by
  have hc := hx c (List.mem_cons_self _ _)
  have hb : ∀ y ∈ body, y ∉ plainEscapeClass ∧ y ≠ '\n' :=
    fun y hy => hx y (List.mem_cons_of_mem _ hy)
  have hesc : escPlain (c :: body) = c :: body := escPlain_of_no_reserved _ fun y hy => (hx y hy).1
  have hnorm := norm_wrapped "***".toList (c :: body) (by decide)
    fun y hy => (reserved_ne y (hx y hy).1).2.2.2.1
  have h1 : fencedAlt 0 ("***".toList ++ c :: body ++ "***".toList) = none :=
    fencedAlt_cons_ne 0 '*' _ (by decide)
  have h2 : inlineAlt 0 ("***".toList ++ c :: body ++ "***".toList) = none :=
    inlineAlt_cons_ne 0 '*' _ (by decide)
  have h3 : emphAlt "***".toList 3 0 ("***".toList ++ c :: body ++ "***".toList) =
      some (caps 0 (0 + 3 + 1 + body.length + 3) 3 (0 + 3) (0 + 3 + 1 + body.length)) := by
    have := emphAlt_match '*' ['*', '*'] 3 0 c body [] hc.2
      (fun y hy => ⟨(hb y hy).2, (reserved_ne y (hb y hy).1).1⟩)
    rw [List.append_nil] at this
    exact this
  have hm : mdPattern 0 ("***".toList ++ c :: body ++ "***".toList) = some
      (caps 0 (0 + 3 + 1 + body.length + 3) 3 (0 + 3) (0 + 3 + 1 + body.length)) := by
    simp only [mdPattern, alt, h1, h2, h3]
  have := translate_emph _ "***".toList (c :: body) "***".toList "*_".toList "_*".toList 3 _
    hnorm hm (by congr 1 <;> simp <;> omega) (renderMatch_caps3 _ _ _ _ _) (by omega)
  rw [hesc] at this
  exact this

theorem translate_strike (c : Char) (body : Str)
    (hx : ∀ y ∈ c :: body, y ∉ plainEscapeClass ∧ y ≠ '\n') :
    mdToTelegramV2 ("~~".toList ++ c :: body ++ "~~".toList) =
      some ("~".toList ++ c :: body ++ "~".toList) := by
  have hc := hx c (List.mem_cons_self _ _)
  have hb : ∀ y ∈ body, y ∉ plainEscapeClass ∧ y ≠ '\n' :=
    fun y hy => hx y (List.mem_cons_of_mem _ hy)
  have hesc : escPlain (c :: body) = c :: body := escPlain_of_no_reserved _ fun y hy => (hx y hy).1
  have hnorm := norm_wrapped "~~".toList (c :: body) (by decide)
    fun y hy => (reserved_ne y (hx y hy).1).2.2.2.1
  have h1 : fencedAlt 0 ("~~".toList ++ c :: body ++ "~~".toList) = none :=
    fencedAlt_cons_ne 0 '~' _ (by decide)
  have h2 : inlineAlt 0 ("~~".toList ++ c :: body ++ "~~".toList) = none :=
    inlineAlt_cons_ne 0 '~' _ (by decide)
  have h3 : emphAlt "***".toList 3 0 ("~~".toList ++ c :: body ++ "~~".toList) = none :=
    emphAlt_cons_ne '*' "**".toList 3 0 '~' _ (by decide)
  have h4 : emphAlt "**".toList 4 0 ("~~".toList ++ c :: body ++ "~~".toList) = none :=
    emphAlt_cons_ne '*' "*".toList 4 0 '~' _ (by decide)
  have h5 : emphAlt "~~".toList 5 0 ("~~".toList ++ c :: body ++ "~~".toList) =
      some (caps 0 (0 + 2 + 1 + body.length + 2) 5 (0 + 2) (0 + 2 + 1 + body.length)) := by
    have := emphAlt_match '~' ['~'] 5 0 c body [] hc.2
      (fun y hy => ⟨(hb y hy).2, (reserved_ne y (hb y hy).1).2.2.1⟩)
    rw [List.append_nil] at this
    exact this
  have hm : mdPattern 0 ("~~".toList ++ c :: body ++ "~~".toList) = some
      (caps 0 (0 + 2 + 1 + body.length + 2) 5 (0 + 2) (0 + 2 + 1 + body.length)) := by
    simp only [mdPattern, alt, h1, h2, h3, h4, h5]
  have := translate_emph _ "~~".toList (c :: body) "~~".toList ['~'] ['~'] 5 _ hnorm hm
    (by congr 1 <;> simp <;> omega) (renderMatch_caps5 _ _ _ _ _) (by omega)
  rw [hesc] at this
  exact this

theorem translate_italicStar (c : Char) (body : Str)
    (hx : ∀ y ∈ c :: body, y ∉ plainEscapeClass ∧ y ≠ '\n') :
    mdToTelegramV2 ("*".toList ++ c :: body ++ "*".toList) =
      some ("_".toList ++ c :: body ++ "_".toList) := by
  have hc := hx c (List.mem_cons_self _ _)
  have hb : ∀ y ∈ body, y ∉ plainEscapeClass ∧ y ≠ '\n' :=
    fun y hy => hx y (List.mem_cons_of_mem _ hy)
  have hesc : escPlain (c :: body) = c :: body := escPlain_of_no_reserved _ fun y hy => (hx y hy).1
  have hnorm := norm_wrapped "*".toList (c :: body) (by decide)
    fun y hy => (reserved_ne y (hx y hy).1).2.2.2.1
  have hcs : ¬ '*' = c := fun e => (reserved_ne c hc.1).1 e.symm
  have e : "*".toList ++ c :: body ++ "*".toList = '*' :: c :: (body ++ "*".toList) := rfl
  have h1 : fencedAlt 0 ("*".toList ++ c :: body ++ "*".toList) = none :=
    fencedAlt_cons_ne 0 '*' _ (by decide)
  have h2 : inlineAlt 0 ("*".toList ++ c :: body ++ "*".toList) = none :=
    inlineAlt_cons_ne 0 '*' _ (by decide)
  have h3 : emphAlt "***".toList 3 0 ("*".toList ++ c :: body ++ "*".toList) = none := by
    have e3 : "***".toList = ['*', '*', '*'] := rfl
    rw [e]
    simp [emphAlt, lit, e3, List.isPrefixOf, hcs]
  have h4 : emphAlt "**".toList 4 0 ("*".toList ++ c :: body ++ "*".toList) = none := by
    have e2 : "**".toList = ['*', '*'] := rfl
    rw [e]
    simp [emphAlt, lit, e2, List.isPrefixOf, hcs]
  have h5 : emphAlt "~~".toList 5 0 ("*".toList ++ c :: body ++ "*".toList) = none :=
    emphAlt_cons_ne '~' "~".toList 5 0 '*' _ (by decide)
  have h6 : italicAlt '*' 6 0 ("*".toList ++ c :: body ++ "*".toList) =
      some (caps 0 (0 + 1 + 1 + body.length + 1) 6 (0 + 1) (0 + 1 + 1 + body.length)) := by
    have := italicAlt_match '*' 6 0 c body [] ⟨(reserved_ne c hc.1).1, hc.2⟩
      (fun y hy => ⟨(reserved_ne y (hb y hy).1).1, (hb y hy).2⟩)
    rw [List.append_nil] at this
    exact this
  have hm : mdPattern 0 ("*".toList ++ c :: body ++ "*".toList) = some
      (caps 0 (0 + 1 + 1 + body.length + 1) 6 (0 + 1) (0 + 1 + 1 + body.length)) := by
    simp only [mdPattern, alt, h1, h2, h3, h4, h5, h6]
  have := translate_emph _ "*".toList (c :: body) "*".toList ['_'] ['_'] 6 _ hnorm hm
    (by congr 1 <;> simp <;> omega) (renderMatch_caps6 _ _ _ _ _) (by omega)
  rw [hesc] at this
  exact this

theorem translate_italicUnderscore (c : Char) (body : Str)
    (hx : ∀ y ∈ c :: body, y ∉ plainEscapeClass ∧ y ≠ '\n') :
    mdToTelegramV2 ("_".toList ++ c :: body ++ "_".toList) =
      some ("_".toList ++ c :: body ++ "_".toList) := by
  have hc := hx c (List.mem_cons_self _ _)
  have hb : ∀ y ∈ body, y ∉ plainEscapeClass ∧ y ≠ '\n' :=
    fun y hy => hx y (List.mem_cons_of_mem _ hy)
  have hesc : escPlain (c :: body) = c :: body := escPlain_of_no_reserved _ fun y hy => (hx y hy).1
  have hnorm := norm_wrapped "_".toList (c :: body) (by decide)
    fun y hy => (reserved_ne y (hx y hy).1).2.2.2.1
  have h1 : fencedAlt 0 ("_".toList ++ c :: body ++ "_".toList) = none :=
    fencedAlt_cons_ne 0 '_' _ (by decide)
  have h2 : inlineAlt 0 ("_".toList ++ c :: body ++ "_".toList) = none :=
    inlineAlt_cons_ne 0 '_' _ (by decide)
  have h3 : emphAlt "***".toList 3 0 ("_".toList ++ c :: body ++ "_".toList) = none :=
    emphAlt_cons_ne '*' "**".toList 3 0 '_' _ (by decide)
  have h4 : emphAlt "**".toList 4 0 ("_".toList ++ c :: body ++ "_".toList) = none :=
    emphAlt_cons_ne '*' "*".toList 4 0 '_' _ (by decide)
  have h5 : emphAlt "~~".toList 5 0 ("_".toList ++ c :: body ++ "_".toList) = none :=
    emphAlt_cons_ne '~' "~".toList 5 0 '_' _ (by decide)
  have h6 : italicAlt '*' 6 0 ("_".toList ++ c :: body ++ "_".toList) = none :=
    italicAlt_cons_ne '*' 6 0 '_' _ (by decide)
  have h7 : italicAlt '_' 7 0 ("_".toList ++ c :: body ++ "_".toList) =
      some (caps 0 (0 + 1 + 1 + body.length + 1) 7 (0 + 1) (0 + 1 + 1 + body.length)) := by
    have := italicAlt_match '_' 7 0 c body [] ⟨(reserved_ne c hc.1).2.1, hc.2⟩
      (fun y hy => ⟨(reserved_ne y (hb y hy).1).2.1, (hb y hy).2⟩)
    rw [List.append_nil] at this
    exact this
  have hm : mdPattern 0 ("_".toList ++ c :: body ++ "_".toList) = some
      (caps 0 (0 + 1 + 1 + body.length + 1) 7 (0 + 1) (0 + 1 + 1 + body.length)) := by
    simp only [mdPattern, alt, h1, h2, h3, h4, h5, h6, h7]
  have := translate_emph _ "_".toList (c :: body) "_".toList ['_'] ['_'] 7 _ hnorm hm
    (by congr 1 <;> simp <;> omega) (renderMatch_caps7 _ _ _ _ _) (by omega)
  rw [hesc] at this
  exact this

theorem renderMatch_caps1 (s : Str) (i e a b : Nat) (start stop : Int) :
    renderMatch s (caps i e 1 a b) start stop = slice s start stop := by
  simp [renderMatch, renderCode, idx, caps, List.range, List.range.loop]

theorem renderMatch_caps2 (s : Str) (i e a b : Nat) (start stop : Int) :
    renderMatch s (caps i e 2 a b) start stop = slice s start stop := by
  simp [renderMatch, renderCode, idx, caps, List.range, List.range.loop]

theorem translate_fenced (c : Str) (hc : ∀ y ∈ c, y ≠ '\x60') :
    mdToTelegramV2 ("```".toList ++ c ++ "```".toList) =
      some ("```".toList ++ normNewlines c ++ "```".toList) := by
  have ht : ∀ r, "```".toList ≠ 'n' :: r := by
    intro r h
    have h1 : '\x60' :: "``".toList = 'n' :: r := h
    exact absurd (List.cons.inj h1).1 (by decide)
  have hnorm : normNewlines ("```".toList ++ c ++ "```".toList) =
      "```".toList ++ normNewlines c ++ "```".toList := by
    rw [List.append_assoc, normNewlines_append_left _ _ (by decide),
      normNewlines_append c "```".toList ht, List.append_assoc]
    rfl
  have hbody : ∀ y ∈ normNewlines c, y ≠ '\x60' := by
    intro y hy
    rcases mem_normNewlines c y hy with h | h
    · exact hc y h
    · rw [h]; decide
  have hm : mdPattern 0 ("```".toList ++ normNewlines c ++ "```".toList) = some
      (caps 0 (0 + 3 + (normNewlines c).length + 3) 1 0 (0 + 3 + (normNewlines c).length + 3)) := by
    have := fencedAlt_match 0 (normNewlines c) [] hbody
    rw [List.append_nil] at this
    simp only [mdPattern, alt, this]
  refine translate_token _ _ _ _ hnorm hm rfl ?_ ?_
  · simp [idx, caps]; omega
  · rw [renderMatch_caps1]
    exact slice_all _

theorem translate_inline (c : Char) (body : Str)
    (hx : ∀ y ∈ c :: body, y ≠ '\x60' ∧ y ≠ '\n') (hpair : ¬ "\\n".toList <:+: c :: body) :
    mdToTelegramV2 ("`".toList ++ c :: body ++ "`".toList) =
      some ("`".toList ++ c :: body ++ "`".toList) := by
  have hc := hx c (List.mem_cons_self _ _)
  have hb : ∀ y ∈ body, y ≠ '\x60' ∧ y ≠ '\n' := fun y hy => hx y (List.mem_cons_of_mem _ hy)
  have ht : ∀ r, "`".toList ≠ 'n' :: r := by
    intro r h
    have h1 : '\x60' :: [] = 'n' :: r := h
    exact absurd (List.cons.inj h1).1 (by decide)
  have hnorm : normNewlines ("`".toList ++ c :: body ++ "`".toList) =
      "`".toList ++ c :: body ++ "`".toList := by
    rw [List.append_assoc, normNewlines_append_left _ _ (by decide),
      normNewlines_append (c :: body) "`".toList ht, normNewlines_of_no_pair _ hpair]
    rfl
  have h1 : fencedAlt 0 ("`".toList ++ c :: body ++ "`".toList) = none := by
    have e : "`".toList ++ c :: body ++ "`".toList = '\x60' :: c :: (body ++ "`".toList) := rfl
    have hcs : ¬ '\x60' = c := fun e => hc.1 e.symm
    have e3 : "```".toList = ['\x60', '\x60', '\x60'] := rfl
    rw [e]
    simp [fencedAlt, lit, e3, List.isPrefixOf, hcs]
  have hm : mdPattern 0 ("`".toList ++ c :: body ++ "`".toList) = some
      (caps 0 (0 + 1 + 1 + body.length + 1) 2 0 (0 + 1 + 1 + body.length + 1)) := by
    have := inlineAlt_match 0 c body [] hc hb
    rw [List.append_nil] at this
    simp only [mdPattern, alt, h1, this]
  refine translate_token _ _ _ _ hnorm hm rfl ?_ ?_
  · simp [idx, caps]; omega
  · rw [renderMatch_caps2]
    exact slice_all _

/-! ## The url of a link match -/

theorem lit_inv {d : Str} {k : Kont} {j : Nat} {s : Str} {m : List Int}
    (h : lit d k j s = some m) : ∃ r, s = d ++ r ∧ k (j + d.length) r = some m := by
  unfold lit at h
  split at h
  · rename_i hp
    obtain ⟨r, rfl⟩ := List.isPrefixOf_iff_prefix.mp hp
    exact ⟨r, rfl, by simpa using h⟩
  · exact absurd h (by simp)

theorem starGreedy_chars {p : Char → Bool} {k : Kont} {s : Str} {m : List Int} :
    ∀ {j : Nat}, starGreedy p k j s = some m →
      ∃ n, n ≤ s.length ∧ (∀ y ∈ s.take n, p y = true) ∧ k (j + n) (s.drop n) = some m := by
  induction s with
  | nil =>
    intro j h
    exact ⟨0, le_rfl, by simp, by simpa [starGreedy] using h⟩
  | cons c cs ih =>
    intro j h
    simp only [starGreedy] at h
    split at h
    · rename_i hc
      split at h
      · rename_i m1 h1
        cases h
        obtain ⟨n, hn, hall, hk⟩ := ih h1
        refine ⟨n + 1, by simp only [List.length_cons]; omega, ?_, ?_⟩
        · intro y hy
          simp only [List.take_succ_cons, List.mem_cons] at hy
          rcases hy with rfl | hy
          · exact hc
          · exact hall y hy
        · rw [show j + (n + 1) = j + 1 + n by omega]
          simpa using hk
      · exact ⟨0, Nat.zero_le _, by simp, by simpa using h⟩
    · exact ⟨0, Nat.zero_le _, by simp, by simpa using h⟩

theorem linkAlt_url (i : Nat) (s : Str) (m : List Int) (h : linkAlt i s = some m) :
    ∃ e a b c d : Nat, m = capsLink i e a b c d ∧ i ≤ c ∧ c ≤ d ∧ d ≤ i + s.length ∧
      ∀ y ∈ (s.drop (c - i)).take (d - c), y ≠ ')' := by
  unfold linkAlt at h
  obtain ⟨s1, rfl, g1⟩ := lit_inv h
  obtain ⟨n1, hn1, _, g2⟩ := starGreedy_chars g1
  obtain ⟨s2, hs2, g3⟩ := lit_inv g2
  obtain ⟨n2, hn2, hall, g4⟩ := starGreedy_chars g3
  obtain ⟨s3, hs3, g5⟩ := lit_inv g4
  simp only [Option.some.injEq] at g5
  have l1 : "[".toList.length = 1 := rfl
  have l2 : "](".toList.length = 2 := rfl
  have l3 : ")".toList.length = 1 := rfl
  rw [l1, l2, l3] at g5
  have hlen1 : (List.drop n1 s1).length = 2 + s2.length := by rw [hs2]; simp [l2]; omega
  rw [List.length_drop] at hlen1
  refine ⟨_, _, _, _, _, g5.symm, by omega, by omega, ?_, ?_⟩
  · simp only [List.length_append, l1]
    omega
  · have hd : List.drop (i + 1 + n1 + 2 - i) ("[".toList ++ s1) = s2 := by
      have e1 : i + 1 + n1 + 2 - i = 1 + (n1 + 2) := by omega
      have e2 : "[".toList ++ s1 = '[' :: s1 := rfl
      rw [e1, e2, Nat.add_comm 1, List.drop_succ_cons, ← List.drop_drop, hs2]
      rfl
    rw [hd, show i + 1 + n1 + 2 + n2 - (i + 1 + n1 + 2) = n2 by omega]
    intro y hy
    have := hall y hy
    simpa [notChar] using this

theorem searchFrom_inv (re : Nat → Str → Option (List Int)) (s : Str) (m : List Int) :
    ∀ pos, searchFrom re pos s = some m → ∃ k, k ≤ s.length ∧ re (pos + k) (s.drop k) = some m := by
  induction s with
  | nil => intro pos h; exact ⟨0, le_rfl, by simpa [searchFrom] using h⟩
  | cons c cs ih =>
    intro pos h
    simp only [searchFrom] at h
    split at h
    · rename_i m1 h1
      cases h
      exact ⟨0, Nat.zero_le _, by simpa using h1⟩
    · obtain ⟨k, hk, hre⟩ := ih (pos + 1) h
      refine ⟨k + 1, by simp only [List.length_cons]; omega, ?_⟩
      rw [show pos + (k + 1) = pos + 1 + k by omega]
      simpa using hre

theorem allMatches_mem (input : Str) (n : Nat) :
    ∀ pos, pos ≤ input.length → ∀ m ∈ allMatches mdPattern input n pos,
      ∃ j, j ≤ input.length ∧ mdPattern j (input.drop j) = some m := by
  induction n with
  | zero => intro pos _ m hm; simp [allMatches] at hm
  | succ n ih =>
    intro pos hpos m hm
    simp only [allMatches] at hm
    split at hm
    · simp at hm
    · rename_i m0 hm0
      have hlen : pos + (List.drop pos input).length = input.length := by
        simp only [List.length_drop]; omega
      rcases List.mem_cons.mp hm with rfl | hm
      · obtain ⟨k, hk, hre⟩ := searchFrom_inv mdPattern _ _ pos hm0
        refine ⟨pos + k, by omega, ?_⟩
        rw [List.drop_drop] at hre
        rw [Nat.add_comm pos k] at hre ⊢
        exact hre
      · obtain ⟨i, _, hv⟩ := searchFrom_valid pos _ m0 hm0
        rw [hlen] at hv
        obtain ⟨e, _, heL, _, _, hget, _⟩ := renderMatch_valid input i m0 hv
        rw [hget, Int.toNat_ofNat] at hm
        exact ih e heL m hm

theorem caps_idx16 (i e g a b : Nat) (hg : 1 ≤ g ∧ g ≤ 7) :
    idx (caps i e g a b) 16 = some (-1) := by
  obtain ⟨h1, h7⟩ := hg
  have hg : g = 1 ∨ g = 2 ∨ g = 3 ∨ g = 4 ∨ g = 5 ∨ g = 6 ∨ g = 7 := by omega
  rcases hg with rfl | rfl | rfl | rfl | rfl | rfl | rfl <;> rfl

theorem mdPattern_link (i : Nat) (s : Str) (m : List Int) (v : Int)
    (h : mdPattern i s = some m) (h16 : idx m 16 = some v) (hv : 0 ≤ v) :
    linkAlt i s = some m := by
  have hno : ∀ L, ValidCaps i L m → False := by
    rintro L ⟨_, e, g, a, b, hg1, hg7, rfl⟩
    rw [caps_idx16 i e g a b ⟨hg1, hg7⟩] at h16
    have : v = -1 := (Option.some.inj h16).symm
    omega
  unfold mdPattern at h
  rcases alt_some h with h | h
  · exact absurd (fencedAlt_valid i s m h) (hno _)
  rcases alt_some h with h | h
  · exact absurd (inlineAlt_valid i s m h) (hno _)
  rcases alt_some h with h | h
  · exact absurd (emphAlt_valid _ 3 (by omega) i s m h) (hno _)
  rcases alt_some h with h | h
  · exact absurd (emphAlt_valid _ 4 (by omega) i s m h) (hno _)
  rcases alt_some h with h | h
  · exact absurd (emphAlt_valid _ 5 (by omega) i s m h) (hno _)
  rcases alt_some h with h | h
  · exact absurd (italicAlt_valid _ 6 (by omega) i s m h) (hno _)
  rcases alt_some h with h | h
  · exact absurd (italicAlt_valid _ 7 (by omega) i s m h) (hno _)
  · exact h

/-- In every link match of mdPattern the url capture holds no closing
parenthesis, so the call of escLinkURL in mdToTelegramV2 returns its argument
unchanged, whatever the input. -/
theorem escLinkURL_changes_nothing (input : Str) :
    ∀ m ∈ findAllStringSubmatchIndex mdPattern input, ∀ v, idx m 16 = some v → 0 ≤ v →
      ∃ m18 m19 url, idx m 18 = some m18 ∧ idx m 19 = some m19 ∧
        slice input m18 m19 = some url ∧ escLinkURL url = url := by
  intro m hm v h16 hv
  obtain ⟨j, hj, hmatch⟩ := allMatches_mem input _ 0 (Nat.zero_le _) m hm
  obtain ⟨e, a, b, c, d, rfl, hjc, hcd, hd, hall⟩ :=
    linkAlt_url j _ m (mdPattern_link j _ m v hmatch h16 hv)
  have hlen : j + (List.drop j input).length = input.length := by
    simp only [List.length_drop]; omega
  rw [hlen] at hd
  rw [List.drop_drop, show j + (c - j) = c by omega] at hall
  refine ⟨c, d, (input.drop c).take (d - c), rfl, rfl, ?_, escLinkURL_of_no_paren _ hall⟩
  have h1 : (c : Int) ≤ (d : Int) := by omega
  have h2 : (d : Int) ≤ (input.length : Int) := by omega
  simp [slice, h1, h2]

/-! ## The translator: the claims -/

theorem mem_specReserved_iff (c : Char) : c ∈ specReserved ↔ c ∈ plainEscapeClass := by
  simp only [specReserved, plainEscapeClass, List.mem_cons, List.mem_singleton,
    List.not_mem_nil, or_false]
  tauto

theorem escPlain_eq_specEscape (s : Str) : escPlain s = specEscape s := by
  rw [escPlain_eq_flatMap, specEscape]
  congr 1
  funext c
  simp only [mem_specReserved_iff]

theorem noMatch_of_no_openers (s : Str) (h : ∀ c ∈ s, c ∉ markupOpeners) :
    ∀ i, mdPattern i (s.drop i) = none := by
  intro i
  cases hd : s.drop i with
  | nil => exact mdPattern_nil i
  | cons c r =>
    have hc : c ∈ s := List.mem_of_mem_drop (by rw [hd]; exact List.mem_cons_self _ _)
    exact mdPattern_cons_none i c r (h c hc)

/-- Claim C1: when no markup form matches anywhere in the newline-normalised
input, and in particular when the input contains none of the characters
backtick, asterisk, underscore, tilde and opening square bracket, the
translator returns the newline-normalised input with one backslash before every
reserved character and every other character unchanged. -/
theorem mdToTelegramV2_plain (input : Str) :
    ((∀ i, mdPattern i ((normNewlines input).drop i) = none) →
      mdToTelegramV2 input = some (specEscape (normNewlines input))) ∧
    ((∀ c ∈ input, c ∉ markupOpeners) →
      mdToTelegramV2 input = some (specEscape (normNewlines input))) := by
  have key : (∀ i, mdPattern i ((normNewlines input).drop i) = none) →
      mdToTelegramV2 input = some (specEscape (normNewlines input)) := by
    intro h
    simp [mdToTelegramV2, findAll_nil _ h, translateLoop, slice, escPlain_eq_specEscape]
  refine ⟨key, fun h => key (noMatch_of_no_openers _ ?_)⟩
  intro c hc
  rcases mem_normNewlines input c hc with h1 | h1
  · exact h c h1
  · rw [h1]; decide

/-- Witness of C1: the input 2*3=6, then backslash, n, then (ok). has an
asterisk but no markup form, and an escaped line break. -/
theorem mdToTelegramV2_plain_witness :
    (∀ i, mdPattern i ((normNewlines "2*3=6\\n(ok).".toList).drop i) = none) ∧
    mdToTelegramV2 "2*3=6\\n(ok).".toList = some "2\\*3\\=6\n\\(ok\\)\\.".toList ∧
    (∀ c ∈ "a-b".toList, c ∉ markupOpeners) ∧
    mdToTelegramV2 "a-b".toList = some "a\\-b".toList := by
  have h : ∀ i, mdPattern i ((normNewlines "2*3=6\\n(ok).".toList).drop i) = none := by
    intro i
    have e : normNewlines "2*3=6\\n(ok).".toList = "2*3=6\n(ok).".toList := by decide
    rw [e]
    by_cases hi : i < 12
    · interval_cases i <;> decide
    · have : List.drop i "2*3=6\n(ok).".toList = [] := List.drop_eq_nil_of_le (by
        have : "2*3=6\n(ok).".toList.length = 11 := by decide
        omega)
      rw [this]
      exact mdPattern_nil i
  exact ⟨h, ((mdToTelegramV2_plain _).1 h).trans (by decide), by decide,
    ((mdToTelegramV2_plain _).2 (by decide)).trans (by decide)⟩

/-- Claim C2: for non-empty content without reserved character and without
line break, the five emphasis forms are rendered as bold, italic, italic,
italic inside bold (three asterisks win over two and one) and strikethrough. -/
theorem mdToTelegramV2_emphasis (x : Str) (hne : x ≠ [])
    (hx : ∀ c ∈ x, c ∉ specReserved ∧ c ≠ '\n') :
    mdToTelegramV2 ("**".toList ++ x ++ "**".toList) = some ("*".toList ++ x ++ "*".toList) ∧
    mdToTelegramV2 ("*".toList ++ x ++ "*".toList) = some ("_".toList ++ x ++ "_".toList) ∧
    mdToTelegramV2 ("_".toList ++ x ++ "_".toList) = some ("_".toList ++ x ++ "_".toList) ∧
    mdToTelegramV2 ("***".toList ++ x ++ "***".toList) =
      some ("*_".toList ++ x ++ "_*".toList) ∧
    mdToTelegramV2 ("~~".toList ++ x ++ "~~".toList) = some ("~".toList ++ x ++ "~".toList) := by
  obtain ⟨c, body, rfl⟩ := List.exists_cons_of_ne_nil hne
  have hx' : ∀ y ∈ c :: body, y ∉ plainEscapeClass ∧ y ≠ '\n' :=
    fun y hy => ⟨fun h => (hx y hy).1 ((mem_specReserved_iff y).mpr h), (hx y hy).2⟩
  exact ⟨translate_bold c body hx', translate_italicStar c body hx',
    translate_italicUnderscore c body hx', translate_boldItalic c body hx',
    translate_strike c body hx'⟩

/-- Witness of C2: the five examples of the specification. -/
theorem mdToTelegramV2_emphasis_witness :
    mdToTelegramV2 "**bold**".toList = some "*bold*".toList ∧
    mdToTelegramV2 "*it*".toList = some "_it_".toList ∧
    mdToTelegramV2 "_it_".toList = some "_it_".toList ∧
    mdToTelegramV2 "***x***".toList = some "*_x_*".toList ∧
    mdToTelegramV2 "~~s~~".toList = some "~s~".toList :=
  ⟨(mdToTelegramV2_emphasis "bold".toList (by decide) (by decide)).1,
   (mdToTelegramV2_emphasis "it".toList (by decide) (by decide)).2.1,
   (mdToTelegramV2_emphasis "it".toList (by decide) (by decide)).2.2.1,
   (mdToTelegramV2_emphasis "x".toList (by decide) (by decide)).2.2.2.1,
   (mdToTelegramV2_emphasis "s".toList (by decide) (by decide)).2.2.2.2⟩

/-- Claim C3: code spans pass through without escaping.  A fenced block whose
content has no backtick is returned with only its escaped line breaks
normalised; an inline span whose content is non-empty and has no backtick, no
line break and no backslash-n pair is returned unchanged. -/
theorem mdToTelegramV2_code (c : Str) (hc : ∀ y ∈ c, y ≠ '\x60') :
    mdToTelegramV2 ("```".toList ++ c ++ "```".toList) =
      some ("```".toList ++ normNewlines c ++ "```".toList) ∧
    (c ≠ [] → (∀ y ∈ c, y ≠ '\n') → ¬ "\\n".toList <:+: c →
      mdToTelegramV2 ("`".toList ++ c ++ "`".toList) = some ("`".toList ++ c ++ "`".toList)) := by
  refine ⟨translate_fenced c hc, fun hne hnl hpair => ?_⟩
  obtain ⟨y, body, rfl⟩ := List.exists_cons_of_ne_nil hne
  exact translate_inline y body (fun z hz => ⟨hc z hz, hnl z hz⟩) hpair

/-- Witness of C3: the content a*b, fenced and inline. -/
theorem mdToTelegramV2_code_witness :
    mdToTelegramV2 "```a*b```".toList = some "```a*b```".toList ∧
    mdToTelegramV2 "`a*b`".toList = some "`a*b`".toList :=
  ⟨(mdToTelegramV2_code "a*b".toList (by decide)).1,
   (mdToTelegramV2_code "a*b".toList (by decide)).2 (by decide) (by decide) (by decide)⟩

/-- Claim C4, evaluated: the url group of the link pattern excludes the closing
parenthesis, so the link of the input [a](http://x/a(b)) ends at the first
closing parenthesis, escLinkURL has nothing to escape, and the last parenthesis
is escaped as plain text after the link; the result is not the one claimed. -/
theorem mdToTelegramV2_link_paren :
    mdToTelegramV2 "[a](http://x/a(b))".toList = some "[a](http://x/a(b)\\)".toList ∧
    mdToTelegramV2 "[a](http://x/a(b))".toList ≠ some "[a](http://x/a(b\\))".toList := by
  decide

/-! ## The delivery functions -/

theorem sendMsg_trace (env : Env) (msg : MessageConfig) (tr : List Event) :
    ∃ text, mdToTelegramV2 msg.Text = some text ∧
      sendMsg env msg tr = some (tr ++ msgAttempts env msg text tr) := by
  obtain ⟨text, htext⟩ := mdToTelegramV2_isSome msg.Text
  refine ⟨text, htext, ?_⟩
  simp only [sendMsg, htext, Option.some_bind, botSend, msgAttempts, formattedSend, plainSend]
  cases h : env.send tr (Chattable.message { msg with Text := text, ParseMode := ModeMarkdownV2 }) with
  | none => simp [isParseError]
  | some err =>
    by_cases hp : stringsContains err parseErrorText = true
    · simp [isParseError, hp]
    · simp [isParseError, hp]

theorem stringsSplit_ne_nil (sep : Char) (s : Str) : stringsSplit sep s ≠ [] := by
  cases s with
  | nil => simp [stringsSplit]
  | cons c cs =>
    simp only [stringsSplit]
    split
    · simp
    · split <;> simp

theorem stringsSplit_getLast (key : Str) :
    (stringsSplit '/' key).getLast? = some (((stringsSplit '/' key).getLast?).getD []) := by
  cases h : (stringsSplit '/' key).getLast? with
  | none => exact absurd (List.getLast?_eq_none_iff.mp h) (stringsSplit_ne_nil _ _)
  | some x => rfl

theorem sendDocuments_trace (env : Env) (chatID : Int) (keys : List Str) :
    ∀ tr, ∃ d, sendDocuments env chatID keys tr = some (tr ++ d) ∧ DeliveryOf chatID keys d := by
  induction keys with
  | nil => intro tr; exact ⟨[], by simp [sendDocuments], by simp [DeliveryOf]⟩
  | cons key rest ih =>
    intro tr
    cases h : env.getObject tr key with
    | some err =>
      obtain ⟨d, hd, h1, h2, h3⟩ := ih (tr ++ [Event.getObject key (some err)])
      refine ⟨Event.getObject key (some err) :: d, ?_, ?_, ?_, ?_⟩
      · simp [sendDocuments, storeGetObject, h, hd]
      · simp [Event.fetchKey, h1]
      · simpa [Event.fetchedOk, Event.sentDocument] using h2
      · intro e he
        rcases List.mem_cons.mp he with rfl | he
        · simp [Event.fetchKey]
        · exact h3 e he
    | none =>
      obtain ⟨d, hd, h1, h2, h3⟩ := ih (tr ++ [Event.getObject key none,
        Event.send (Chattable.document (documentFor chatID key))
          (env.send (tr ++ [Event.getObject key none])
            (Chattable.document (documentFor chatID key)))])
      refine ⟨Event.getObject key none :: Event.send (Chattable.document (documentFor chatID key))
          (env.send (tr ++ [Event.getObject key none])
            (Chattable.document (documentFor chatID key))) :: d, ?_, ?_, ?_, ?_⟩
      · simp only [sendDocuments, storeGetObject, h]
        rw [stringsSplit_getLast key]
        simpa [botSend, documentFor] using hd
      · simp [Event.fetchKey, h1]
      · simpa [Event.fetchedOk, Event.sentDocument] using h2
      · intro e he
        rcases List.mem_cons.mp he with rfl | he
        · simp [Event.fetchKey]
        · rcases List.mem_cons.mp he with rfl | he
          · simp [Event.sentDocument]
          · exact h3 e he

theorem msgAttempts_length (env : Env) (msg : MessageConfig) (text : Str) (tr : List Event) :
    (msgAttempts env msg text tr).length ≤ 2 := by
  unfold msgAttempts
  split <;> simp

theorem msgAttempts_textSend (env : Env) (msg : MessageConfig) (text : Str) (tr : List Event) :
    ∀ e ∈ msgAttempts env msg text tr,
      e.isTextSend = true ∧ e.replyMarkup = msg.ReplyMarkup ∧ e.sentDocument = none ∧
        e.isListing = false := by
  intro e he
  unfold msgAttempts at he
  split at he
  · simp only [List.mem_cons, List.mem_singleton, List.not_mem_nil, or_false] at he
    rcases he with rfl | rfl <;>
      simp [Event.isTextSend, Event.replyMarkup, Event.sentDocument, Event.isListing,
        formattedSend, plainSend]
  · simp only [List.mem_singleton] at he
    subst he
    simp [Event.isTextSend, Event.replyMarkup, Event.sentDocument, Event.isListing,
      formattedSend]

theorem sendSuccess_empty (env : Env) (cfg : Bot) (chatID : Int) (tr : List Event)
    (h : (env.listObjects tr (cfg.ID ++ "/docs/".toList)).1 = [] ∨
      (env.listObjects tr (cfg.ID ++ "/docs/".toList)).2.isSome = true) :
    sendSuccess env cfg chatID tr =
      if cfg.SuccessMsg ≠ [] then
        sendMsg env (NewMessage chatID cfg.SuccessMsg) (tr ++ [listingEvent env cfg tr])
      else some (tr ++ [listingEvent env cfg tr]) := by
  have hobj : (if (env.listObjects tr (cfg.ID ++ "/docs/".toList)).2.isSome = true then []
      else (env.listObjects tr (cfg.ID ++ "/docs/".toList)).1) = [] := by
    rcases h with h | h
    · rw [h]; split <;> rfl
    · rw [if_pos h]
  simp only [sendSuccess, hobj, listingEvent, List.length_nil, if_true]

theorem sendSuccess_listed (env : Env) (cfg : Bot) (chatID : Int) (tr : List Event)
    (keys : List Str) (h : env.listObjects tr (cfg.ID ++ "/docs/".toList) = (keys, none))
    (hk : keys ≠ []) :
    sendSuccess env cfg chatID tr =
      (if cfg.SuccessMsg ≠ [] then
        sendMsg env (NewMessage chatID cfg.SuccessMsg) (tr ++ [listingEvent env cfg tr])
       else some (tr ++ [listingEvent env cfg tr])).bind fun tr1 =>
        sendDocuments env chatID keys tr1 := by
  have hlen : ¬ keys.length = 0 := fun h0 => hk (List.length_eq_zero.mp h0)
  simp only [sendSuccess, h, listingEvent, Option.isSome_none, Bool.false_eq_true, if_false, hlen]

/-! ## The delivery functions: the claims -/

/-- Claim C7: with a listing that is not empty and a success text that is not
empty, sendSuccess first sends the text (through sendMsg), then fetches every
listed key in listing order, whatever failed before, and sends one document for
exactly the keys whose fetch succeeded, in that order. -/
theorem sendSuccess_files (env : Env) (cfg : Bot) (chatID : Int) (tr : List Event)
    (keys : List Str) (h : env.listObjects tr (cfg.ID ++ "/docs/".toList) = (keys, none))
    (hk : keys ≠ []) (ht : cfg.SuccessMsg ≠ []) :
    ∃ text d, mdToTelegramV2 cfg.SuccessMsg = some text ∧
      sendSuccess env cfg chatID tr =
        some (tr ++ listingEvent env cfg tr ::
          msgAttempts env (NewMessage chatID cfg.SuccessMsg) text (tr ++ [listingEvent env cfg tr])
          ++ d) ∧
      DeliveryOf chatID keys d := by
  obtain ⟨text, htext, hsend⟩ := sendMsg_trace env (NewMessage chatID cfg.SuccessMsg)
    (tr ++ [listingEvent env cfg tr])
  obtain ⟨d, hd, hdel⟩ := sendDocuments_trace env chatID keys
    (tr ++ [listingEvent env cfg tr] ++
      msgAttempts env (NewMessage chatID cfg.SuccessMsg) text (tr ++ [listingEvent env cfg tr]))
  refine ⟨text, d, htext, ?_, hdel⟩
  rw [sendSuccess_listed env cfg chatID tr keys h hk, if_pos ht, hsend, Option.some_bind, hd]
  simp

/-- Witness of C7: the two documents a.pdf and b.pdf with the success text
Thanks!: when every call succeeds the text is followed by both files; when the
fetch of a.pdf fails it is followed by b.pdf alone. -/
theorem sendSuccess_files_witness :
    (∃ text d, mdToTelegramV2 demoBot.SuccessMsg = some text ∧
      sendSuccess envFetchFails demoBot 42 [] =
        some ([] ++ listingEvent envFetchFails demoBot [] ::
          msgAttempts envFetchFails (NewMessage 42 demoBot.SuccessMsg) text
            ([] ++ [listingEvent envFetchFails demoBot []]) ++ d) ∧
      DeliveryOf 42 demoKeys d) ∧
    sendSuccess envFetchFails demoBot 42 [] =
      some [Event.listObjects "b1/docs/".toList demoKeys none,
        Event.send (formattedSend (NewMessage 42 "Thanks!".toList) "Thanks\\!".toList) none,
        Event.getObject "b1/docs/a.pdf".toList (some "gone".toList),
        Event.getObject "b1/docs/b.pdf".toList none,
        Event.send (Chattable.document (NewDocument 42
          { Name := "b.pdf".toList, Reader := "b1/docs/b.pdf".toList })) none] ∧
    sendSuccess envAllOk demoBot 42 [] =
      some [Event.listObjects "b1/docs/".toList demoKeys none,
        Event.send (formattedSend (NewMessage 42 "Thanks!".toList) "Thanks\\!".toList) none,
        Event.getObject "b1/docs/a.pdf".toList none,
        Event.send (Chattable.document (NewDocument 42
          { Name := "a.pdf".toList, Reader := "b1/docs/a.pdf".toList })) none,
        Event.getObject "b1/docs/b.pdf".toList none,
        Event.send (Chattable.document (NewDocument 42
          { Name := "b.pdf".toList, Reader := "b1/docs/b.pdf".toList })) none] :=
  ⟨sendSuccess_files envFetchFails demoBot 42 [] demoKeys rfl (by decide) (by decide),
    by decide, by decide⟩

/-- Claim C8: when the listing is empty or fails, sendSuccess sends no
document; with an empty success text the listing is all it does, and with a
success text it makes, after the listing, the one call of sendMsg for that
text and nothing else. -/
theorem sendSuccess_no_files (env : Env) (cfg : Bot) (chatID : Int) (tr : List Event)
    (h : (env.listObjects tr (cfg.ID ++ "/docs/".toList)).1 = [] ∨
      (env.listObjects tr (cfg.ID ++ "/docs/".toList)).2.isSome = true) :
    (cfg.SuccessMsg = [] → sendSuccess env cfg chatID tr = some (tr ++ [listingEvent env cfg tr])) ∧
    (cfg.SuccessMsg ≠ [] → ∃ text, mdToTelegramV2 cfg.SuccessMsg = some text ∧
      sendSuccess env cfg chatID tr =
        some (tr ++ listingEvent env cfg tr ::
          msgAttempts env (NewMessage chatID cfg.SuccessMsg) text
            (tr ++ [listingEvent env cfg tr]))) ∧
    (∀ d, sendSuccess env cfg chatID tr = some (tr ++ d) → ∀ e ∈ d, e.sentDocument = none) := by
  have h1 : cfg.SuccessMsg = [] →
      sendSuccess env cfg chatID tr = some (tr ++ [listingEvent env cfg tr]) := by
    intro ht
    rw [sendSuccess_empty env cfg chatID tr h, if_neg (not_not.mpr ht)]
  have h2 : cfg.SuccessMsg ≠ [] → ∃ text, mdToTelegramV2 cfg.SuccessMsg = some text ∧
      sendSuccess env cfg chatID tr =
        some (tr ++ listingEvent env cfg tr ::
          msgAttempts env (NewMessage chatID cfg.SuccessMsg) text
            (tr ++ [listingEvent env cfg tr])) := by
    intro ht
    obtain ⟨text, htext, hsend⟩ := sendMsg_trace env (NewMessage chatID cfg.SuccessMsg)
      (tr ++ [listingEvent env cfg tr])
    refine ⟨text, htext, ?_⟩
    rw [sendSuccess_empty env cfg chatID tr h, if_pos ht, hsend]
    simp
  refine ⟨h1, h2, ?_⟩
  intro d hd e he
  by_cases ht : cfg.SuccessMsg = []
  · rw [h1 ht] at hd
    have hd' : d = [listingEvent env cfg tr] := (List.append_cancel_left (Option.some.inj hd)).symm
    subst hd'
    simp only [List.mem_singleton] at he
    subst he
    rfl
  · obtain ⟨text, _, hsend⟩ := h2 ht
    rw [hsend] at hd
    have hd' := (List.append_cancel_left (Option.some.inj hd)).symm
    subst hd'
    rcases List.mem_cons.mp he with rfl | he
    · rfl
    · exact (msgAttempts_textSend _ _ _ _ e he).2.2.1

/-- Witness of C8: a failed listing with the success text Thanks! gives one
text message; an empty listing with no success text gives nothing. -/
theorem sendSuccess_no_files_witness :
    sendSuccess envListFails demoBot 42 [] =
      some [Event.listObjects "b1/docs/".toList demoKeys (some "timeout".toList),
        Event.send (formattedSend (NewMessage 42 "Thanks!".toList) "Thanks\\!".toList) none] ∧
    sendSuccess envNoFiles { demoBot with SuccessMsg := [] } 42 [] =
      some [Event.listObjects "b1/docs/".toList [] none] := by
  obtain ⟨text, htext, h⟩ :=
    (sendSuccess_no_files envListFails demoBot 42 [] (Or.inr rfl)).2.1 (by decide)
  have ht : text = "Thanks\\!".toList := Option.some.inj (htext.symm.trans (by decide))
  subst ht
  exact ⟨h.trans (by decide),
    (sendSuccess_no_files envNoFiles { demoBot with SuccessMsg := [] } 42 [] (Or.inl rfl)).1 rfl⟩

/-- Claim C9: sendMsg first sends the translated text with parse mode
MarkdownV2; exactly when that attempt ends in a parse error it sends once more,
the same message (same chat, same reply markup) with the original text, its
escaped line breaks normalised, and no parse mode; otherwise it sends nothing
more.  There are never more than two attempts. -/
theorem sendMsg_attempts (env : Env) (msg : MessageConfig) (tr : List Event) :
    ∃ text, mdToTelegramV2 msg.Text = some text ∧
      (isParseError (env.send tr (formattedSend msg text)) = true →
        sendMsg env msg tr = some (tr ++
          [Event.send (formattedSend msg text) (env.send tr (formattedSend msg text)),
           Event.send (plainSend msg)
            (env.send (tr ++ [Event.send (formattedSend msg text)
              (env.send tr (formattedSend msg text))]) (plainSend msg))])) ∧
      (isParseError (env.send tr (formattedSend msg text)) = false →
        sendMsg env msg tr = some (tr ++
          [Event.send (formattedSend msg text) (env.send tr (formattedSend msg text))])) ∧
      (∀ d, sendMsg env msg tr = some (tr ++ d) → d.length ≤ 2) := by
  obtain ⟨text, htext, hsend⟩ := sendMsg_trace env msg tr
  refine ⟨text, htext, ?_, ?_, ?_⟩
  · intro hp
    rw [hsend, msgAttempts, if_pos hp]
  · intro hp
    rw [hsend, msgAttempts, if_neg (by simp [hp])]
  · intro d hd
    rw [hsend] at hd
    rw [← List.append_cancel_left (Option.some.inj hd)]
    exact msgAttempts_length env msg text tr

/-- Witness of C9: a platform that rejects formatted text gets the message a
second time, unformatted; a platform that accepts it gets it once. -/
theorem sendMsg_attempts_witness :
    sendMsg envRejecting (NewMessage 42 "a.b\\nc".toList) [] =
      some [Event.send (formattedSend (NewMessage 42 "a.b\\nc".toList) "a\\.b\nc".toList)
          (some ("Bad Request: ".toList ++ parseErrorText)),
        Event.send (Chattable.message (NewMessage 42 "a.b\nc".toList)) none] ∧
    sendMsg envAllOk (NewMessage 42 "a.b\\nc".toList) [] =
      some [Event.send (formattedSend (NewMessage 42 "a.b\\nc".toList) "a\\.b\nc".toList)
        none] := by
  obtain ⟨text, htext, h, _, _⟩ := sendMsg_attempts envRejecting (NewMessage 42 "a.b\\nc".toList) []
  obtain ⟨text2, htext2, _, h2, _⟩ := sendMsg_attempts envAllOk (NewMessage 42 "a.b\\nc".toList) []
  have ht : text = "a\\.b\nc".toList := Option.some.inj (htext.symm.trans (by decide))
  have ht2 : text2 = "a\\.b\nc".toList := Option.some.inj (htext2.symm.trans (by decide))
  subst ht ht2
  exact ⟨(h (by decide)).trans (by decide), (h2 (by decide)).trans (by decide)⟩

/-! ## The update handler: the claims -/

theorem sendSuccess_shape (env : Env) (cfg : Bot) (chatID : Int) (tr : List Event) :
    ∃ d, sendSuccess env cfg chatID tr = some (tr ++ listingEvent env cfg tr :: d) ∧
      ∀ e ∈ d, e.isListing = false ∧ e.replyMarkup = none := by
  obtain ⟨text, _, hsend⟩ := sendMsg_trace env (NewMessage chatID cfg.SuccessMsg)
    (tr ++ [listingEvent env cfg tr])
  have hmsg := msgAttempts_textSend env (NewMessage chatID cfg.SuccessMsg) text
    (tr ++ [listingEvent env cfg tr])
  by_cases h : (env.listObjects tr (cfg.ID ++ "/docs/".toList)).1 = [] ∨
      (env.listObjects tr (cfg.ID ++ "/docs/".toList)).2.isSome = true
  · rw [sendSuccess_empty env cfg chatID tr h]
    by_cases ht : cfg.SuccessMsg = []
    · exact ⟨[], by rw [if_neg (not_not.mpr ht)], by simp⟩
    · refine ⟨_, by rw [if_pos ht, hsend, List.append_assoc]; rfl, ?_⟩
      intro e he
      exact ⟨(hmsg e he).2.2.2, (hmsg e he).2.1⟩
  · have h1 : ¬ (env.listObjects tr (cfg.ID ++ "/docs/".toList)).1 = [] := fun h1 => h (Or.inl h1)
    have h2 : (env.listObjects tr (cfg.ID ++ "/docs/".toList)).2 = none := by
      cases h2 : (env.listObjects tr (cfg.ID ++ "/docs/".toList)).2 with
      | none => rfl
      | some x => exact absurd (Or.inr (by rw [h2]; rfl)) h
    have hl : env.listObjects tr (cfg.ID ++ "/docs/".toList) =
        ((env.listObjects tr (cfg.ID ++ "/docs/".toList)).1, none) := by
      rw [← h2]
    rw [sendSuccess_listed env cfg chatID tr _ hl h1]
    have hdoc : ∀ (d : List Event) keys, DeliveryOf chatID keys d →
        ∀ e ∈ d, e.isListing = false ∧ e.replyMarkup = none := by
      intro d keys hd e he
      rcases hd.2.2 e he with h3 | h3
      · cases e with
        | getObject key err => exact ⟨rfl, rfl⟩
        | _ => simp [Event.fetchKey] at h3
      · cases e with
        | send c err =>
          cases c with
          | document doc => exact ⟨rfl, rfl⟩
          | _ => simp [Event.sentDocument] at h3
        | _ => simp [Event.sentDocument] at h3
    by_cases ht : cfg.SuccessMsg = []
    · obtain ⟨d, hd, hdel⟩ := sendDocuments_trace env chatID
        (env.listObjects tr (cfg.ID ++ "/docs/".toList)).1 (tr ++ [listingEvent env cfg tr])
      refine ⟨d, by rw [if_neg (not_not.mpr ht), Option.some_bind, hd, List.append_assoc]; rfl,
        hdoc d _ hdel⟩
    · obtain ⟨d, hd, hdel⟩ := sendDocuments_trace env chatID
        (env.listObjects tr (cfg.ID ++ "/docs/".toList)).1
        (tr ++ [listingEvent env cfg tr] ++
          msgAttempts env (NewMessage chatID cfg.SuccessMsg) text (tr ++ [listingEvent env cfg tr]))
      refine ⟨msgAttempts env (NewMessage chatID cfg.SuccessMsg) text
        (tr ++ [listingEvent env cfg tr]) ++ d, ?_, ?_⟩
      · rw [if_pos ht, hsend, Option.some_bind, hd]
        simp
      · intro e he
        rcases List.mem_append.mp he with he | he
        · exact ⟨(hmsg e he).2.2.2, (hmsg e he).2.1⟩
        · exact hdoc d _ hdel e he

theorem handleBotUpdate_checked (env : Env) (cfg : Bot) (update : Update) (tr : List Event)
    (cq : CallbackQuery) (message : Message) (chat : Chat) (sender : User) (status : Str)
    (hg : fromGroup update = some false) (hs : isStart update = false)
    (hcq : update.CallbackQuery = some cq) (hdata : cq.Data = "check_subscription".toList)
    (hmsg : cq.Message = some message) (hchat : message.Chat = some chat)
    (hfrom : cq.From = some sender)
    (hq : env.getChatMember (tr ++ [Event.answerCallback cq.ID []]) cfg.ChannelID sender.ID =
      MemberResult.ok status) :
    handleBotUpdate env cfg update tr =
      if status = "left".toList ∨ status = "kicked".toList then
        sendMsg env (notSubMessage cfg chat.ID) (membershipChecked cfg cq sender status tr)
      else sendSuccess env cfg chat.ID (membershipChecked cfg cq sender status tr) := by
  simp only [handleBotUpdate, hg, Option.some_bind, Bool.false_eq_true, if_false, hs, hcq, hdata,
    if_true, handleCallback, hmsg, hchat, hfrom, hq, membershipChecked, sendNotSub, notSubMessage,
    List.append_assoc, List.singleton_append]

/-- Claim C5: after a successful membership query of a subscription-check
callback, the status left or kicked makes the handler send the not-subscribed
text with the subscribe keyboard through sendMsg, and no listing of content is
made; any other status makes the handler run sendSuccess once: one listing, and
no message that carries a keyboard. -/
theorem handleBotUpdate_membership (env : Env) (cfg : Bot) (update : Update) (tr : List Event)
    (cq : CallbackQuery) (message : Message) (chat : Chat) (sender : User) (status : Str)
    (hg : fromGroup update = some false) (hs : isStart update = false)
    (hcq : update.CallbackQuery = some cq) (hdata : cq.Data = "check_subscription".toList)
    (hmsg : cq.Message = some message) (hchat : message.Chat = some chat)
    (hfrom : cq.From = some sender)
    (hq : env.getChatMember (tr ++ [Event.answerCallback cq.ID []]) cfg.ChannelID sender.ID =
      MemberResult.ok status) :
    ((status = "left".toList ∨ status = "kicked".toList) →
      ∃ text, mdToTelegramV2 cfg.NotSubMsg = some text ∧
        handleBotUpdate env cfg update tr =
          some (membershipChecked cfg cq sender status tr ++
            msgAttempts env (notSubMessage cfg chat.ID) text
              (membershipChecked cfg cq sender status tr)) ∧
        ∀ e ∈ msgAttempts env (notSubMessage cfg chat.ID) text
            (membershipChecked cfg cq sender status tr),
          e.isListing = false ∧ e.replyMarkup = some (subscribeKeyboard cfg)) ∧
    (¬ (status = "left".toList ∨ status = "kicked".toList) →
      handleBotUpdate env cfg update tr =
        sendSuccess env cfg chat.ID (membershipChecked cfg cq sender status tr) ∧
      ∃ d, handleBotUpdate env cfg update tr =
          some (membershipChecked cfg cq sender status tr ++
            listingEvent env cfg (membershipChecked cfg cq sender status tr) :: d) ∧
        ∀ e ∈ d, e.isListing = false ∧ e.replyMarkup = none) := by
  have key := handleBotUpdate_checked env cfg update tr cq message chat sender status hg hs hcq
    hdata hmsg hchat hfrom hq
  constructor
  · intro hst
    obtain ⟨text, htext, hsend⟩ := sendMsg_trace env (notSubMessage cfg chat.ID)
      (membershipChecked cfg cq sender status tr)
    refine ⟨text, htext, by rw [key, if_pos hst, hsend], ?_⟩
    intro e he
    have := msgAttempts_textSend _ _ _ _ e he
    exact ⟨this.2.2.2, this.2.1⟩
  · intro hst
    rw [key, if_neg hst]
    exact ⟨rfl, sendSuccess_shape env cfg chat.ID _⟩

/-- Witness of C5: a user who has left the channel gets the not-subscribed text
with the button; a member gets the content. -/
theorem handleBotUpdate_membership_witness :
    handleBotUpdate envRejecting demoBot privateCallback [] =
      some [Event.answerCallback "cb1".toList [],
        Event.getChatMember (-1001) 7 (MemberResult.ok "left".toList),
        Event.send (formattedSend (notSubMessage demoBot 42) "Subscribe first\\.".toList)
          (some ("Bad Request: ".toList ++ parseErrorText)),
        Event.send (plainSend (notSubMessage demoBot 42)) none] ∧
    handleBotUpdate envAllOk demoBot privateCallback [] =
      sendSuccess envAllOk demoBot 42 [Event.answerCallback "cb1".toList [],
        Event.getChatMember (-1001) 7 (MemberResult.ok "member".toList)] := by
  obtain ⟨text, htext, h, _⟩ := (handleBotUpdate_membership envRejecting demoBot privateCallback []
    _ _ _ _ "left".toList rfl rfl rfl rfl rfl rfl rfl rfl).1 (Or.inl rfl)
  have ht : text = "Subscribe first\\.".toList := Option.some.inj (htext.symm.trans (by decide))
  subst ht
  exact ⟨h.trans (by decide),
    ((handleBotUpdate_membership envAllOk demoBot privateCallback [] _ _ _ _ "member".toList
      rfl rfl rfl rfl rfl rfl rfl rfl).2 (by decide)).1⟩

/-- Claim C6, as amended: an update that carries a message from a chat of type
group, a start command or any other message, makes the handler do nothing. -/
theorem handleBotUpdate_group_message (env : Env) (cfg : Bot) (update : Update)
    (tr : List Event) (message : Message) (chat : Chat) (hm : update.Message = some message)
    (hc : message.Chat = some chat) (ht : chat.ChatType = "group".toList) :
    handleBotUpdate env cfg update tr = some tr := by
  have hg : chat.IsGroup = true := by simp [Chat.IsGroup, ht]
  simp [handleBotUpdate, fromGroup, hm, hc, hg]

/-- Witness of C6 as amended: a start command in a group chat. -/
theorem handleBotUpdate_group_message_witness :
    handleBotUpdate envAllOk demoBot groupStart [] = some [] :=
  handleBotUpdate_group_message envAllOk demoBot groupStart [] _ _ rfl rfl rfl

/-- Claim C6 as stated fails: the group check of handleBotUpdate looks at
update.Message only, so a press of the subscription button under a message in a
group chat is acknowledged, the membership is queried and the content is
delivered to the group. -/
theorem handleBotUpdate_group_callback_served :
    handleBotUpdate envAllOk demoBot groupCallback [] =
      some [Event.answerCallback "cb2".toList [],
        Event.getChatMember (-1001) 7 (MemberResult.ok "member".toList),
        Event.listObjects "b1/docs/".toList demoKeys none,
        Event.send (formattedSend (NewMessage (-500) "Thanks!".toList) "Thanks\\!".toList) none,
        Event.getObject "b1/docs/a.pdf".toList none,
        Event.send (Chattable.document (NewDocument (-500)
          { Name := "a.pdf".toList, Reader := "b1/docs/a.pdf".toList })) none,
        Event.getObject "b1/docs/b.pdf".toList none,
        Event.send (Chattable.document (NewDocument (-500)
          { Name := "b.pdf".toList, Reader := "b1/docs/b.pdf".toList })) none] := by
  decide

theorem sendWelcome_photo_or_text (env : Env) (cfg : Bot) (chatID : Int) (tr : List Event)
    (hk : cfg.WelcomeImgKey ≠ []) :
    ∃ pre, (∀ e ∈ pre, e.isTextSend = false) ∧
      ((sendWelcome env cfg chatID tr = some (tr ++ pre) ∧ ∃ e ∈ pre, e.isPhotoSent = true) ∨
       ((∀ e ∈ pre, e.isPhotoSent = false) ∧
        sendWelcome env cfg chatID tr = sendMsg env (welcomeMessage cfg chatID) (tr ++ pre))) := by
  obtain ⟨caption, hcap⟩ := mdToTelegramV2_isSome cfg.WelcomeMsg
  simp only [sendWelcome, if_pos hk, storeGetObject, hcap, Option.some_bind, botSend,
    sendWelcomeRetry, sendWelcomeText]
  cases h0 : env.getObject tr cfg.WelcomeImgKey with
  | some err0 =>
    exact ⟨[Event.getObject cfg.WelcomeImgKey (some err0)], by simp [Event.isTextSend, formattedPhoto, plainPhoto],
      Or.inr ⟨by simp [Event.isPhotoSent, formattedPhoto, plainPhoto], rfl⟩⟩
  | none =>
    simp only []
    generalize hp1 : formattedPhoto cfg chatID caption = photo1
    cases h1 : env.send (tr ++ [Event.getObject cfg.WelcomeImgKey none]) photo1 with
    | none =>
      refine ⟨[Event.getObject cfg.WelcomeImgKey none, Event.send photo1 none], ?_,
        Or.inl ⟨by simp, Event.send photo1 none, by simp, by subst hp1; rfl⟩⟩
      subst hp1
      simp [Event.isTextSend, formattedPhoto, plainPhoto]
    | some err1 =>
      simp only []
      by_cases hpe : stringsContains err1 parseErrorText = true
      · simp only [hpe, if_true]
        cases h2 : env.getObject (tr ++ [Event.getObject cfg.WelcomeImgKey none] ++
            [Event.send photo1 (some err1)]) cfg.WelcomeImgKey with
        | some err2 =>
          refine ⟨[Event.getObject cfg.WelcomeImgKey none, Event.send photo1 (some err1),
            Event.getObject cfg.WelcomeImgKey (some err2)], ?_, Or.inr ⟨?_, by simp⟩⟩
          · subst hp1; simp [Event.isTextSend, formattedPhoto, plainPhoto]
          · subst hp1; simp [Event.isPhotoSent, formattedPhoto, plainPhoto]
        | none =>
          simp only []
          generalize hp2 : plainPhoto cfg chatID = photo2
          cases h3 : env.send (tr ++ [Event.getObject cfg.WelcomeImgKey none] ++
              [Event.send photo1 (some err1)] ++ [Event.getObject cfg.WelcomeImgKey none])
              photo2 with
          | none =>
            refine ⟨[Event.getObject cfg.WelcomeImgKey none, Event.send photo1 (some err1),
              Event.getObject cfg.WelcomeImgKey none, Event.send photo2 none], ?_,
              Or.inl ⟨by simp, Event.send photo2 none, by simp, by subst hp2; rfl⟩⟩
            subst hp1 hp2
            simp [Event.isTextSend, formattedPhoto, plainPhoto]
          | some err3 =>
            refine ⟨[Event.getObject cfg.WelcomeImgKey none, Event.send photo1 (some err1),
              Event.getObject cfg.WelcomeImgKey none, Event.send photo2 (some err3)], ?_,
              Or.inr ⟨?_, by simp⟩⟩
            · subst hp1 hp2; simp [Event.isTextSend, formattedPhoto, plainPhoto]
            · subst hp1 hp2; simp [Event.isPhotoSent, formattedPhoto, plainPhoto]
      · simp only [hpe, if_false]
        refine ⟨[Event.getObject cfg.WelcomeImgKey none, Event.send photo1 (some err1)], ?_,
          Or.inr ⟨?_, by simp⟩⟩
        · subst hp1; simp [Event.isTextSend, formattedPhoto, plainPhoto]
        · subst hp1; simp [Event.isPhotoSent, formattedPhoto, plainPhoto]

/-- Claim C10: for a start command in a direct chat with a welcome image
configured, whenever no photo send succeeds the handler ends with the text
welcome, sent through sendMsg with the welcome text and the subscribe keyboard,
after a first part in which no text is sent; and when a photo send succeeds no
text message is sent at all. -/
theorem handleBotUpdate_welcome_fallback (env : Env) (cfg : Bot) (update : Update)
    (tr : List Event) (message : Message) (chat : Chat) (hm : update.Message = some message)
    (hc : message.Chat = some chat) (hg : chat.IsGroup = false)
    (hs : message.Command = "start".toList) (hk : cfg.WelcomeImgKey ≠ []) :
    ∃ d, handleBotUpdate env cfg update tr = some (tr ++ d) ∧
      ((∃ e ∈ d, e.isPhotoSent = true) → ∀ e ∈ d, e.isTextSend = false) ∧
      ((∀ e ∈ d, e.isPhotoSent = false) →
        ∃ pre text, mdToTelegramV2 cfg.WelcomeMsg = some text ∧
          d = pre ++ msgAttempts env (welcomeMessage cfg chat.ID) text (tr ++ pre) ∧
          ∀ e ∈ pre, e.isTextSend = false) := by
  have hhandle : handleBotUpdate env cfg update tr = sendWelcome env cfg chat.ID tr := by
    simp [handleBotUpdate, fromGroup, isStart, hm, hc, hg, hs]
  obtain ⟨pre, hpre, h | h⟩ := sendWelcome_photo_or_text env cfg chat.ID tr hk
  · refine ⟨pre, by rw [hhandle, h.1], fun _ => hpre, fun hno => ?_⟩
    obtain ⟨e, he, hsent⟩ := h.2
    rw [hno e he] at hsent
    exact absurd hsent (by simp)
  · obtain ⟨text, htext, hsend⟩ := sendMsg_trace env (welcomeMessage cfg chat.ID) (tr ++ pre)
    refine ⟨pre ++ msgAttempts env (welcomeMessage cfg chat.ID) text (tr ++ pre),
      by rw [hhandle, h.2, hsend, List.append_assoc], ?_, fun _ => ⟨pre, text, htext, rfl, hpre⟩⟩
    rintro ⟨e, he, hsent⟩
    exfalso
    rcases List.mem_append.mp he with he | he
    · rw [h.1 e he] at hsent
      exact absurd hsent (by simp)
    · have ht := (msgAttempts_textSend _ _ _ _ e he).1
      cases e with
      | send c err =>
        cases c with
        | message m => simp [Event.isPhotoSent] at hsent
        | _ => simp [Event.isTextSend] at ht
      | _ => simp [Event.isTextSend] at ht

/-- Witness of C10: the four ways in which no photo is delivered (the image
cannot be fetched; the photo is refused for another reason than its markup; the
markup is rejected and the image cannot be fetched again; the markup is
rejected and the unformatted photo is refused) all end with the text welcome,
and the two ways in which a photo is delivered send no text. -/
theorem handleBotUpdate_welcome_fallback_witness :
    (∃ d, handleBotUpdate envPlainPhotoRefused demoBot privateStart [] = some ([] ++ d) ∧
      ((∃ e ∈ d, e.isPhotoSent = true) → ∀ e ∈ d, e.isTextSend = false) ∧
      ((∀ e ∈ d, e.isPhotoSent = false) →
        ∃ pre text, mdToTelegramV2 demoBot.WelcomeMsg = some text ∧
          d = pre ++ msgAttempts envPlainPhotoRefused (welcomeMessage demoBot 42) text ([] ++ pre) ∧
          ∀ e ∈ pre, e.isTextSend = false)) ∧
    handleBotUpdate envNoImage demoBot privateStart [] =
      some [Event.getObject "b1/welcome.jpg".toList (some "gone".toList),
        Event.send (formattedSend (welcomeMessage demoBot 42) "Hi _you_".toList) none] ∧
    handleBotUpdate envPhotoRefused demoBot privateStart [] =
      some [Event.getObject "b1/welcome.jpg".toList none,
        Event.send (formattedPhoto demoBot 42 "Hi _you_".toList) (some "Forbidden".toList),
        Event.send (formattedSend (welcomeMessage demoBot 42) "Hi _you_".toList) none] ∧
    handleBotUpdate envRefetchFails demoBot privateStart [] =
      some [Event.getObject "b1/welcome.jpg".toList none,
        Event.send (formattedPhoto demoBot 42 "Hi _you_".toList)
          (some ("Bad Request: ".toList ++ parseErrorText)),
        Event.getObject "b1/welcome.jpg".toList (some "gone".toList),
        Event.send (formattedSend (welcomeMessage demoBot 42) "Hi _you_".toList)
          (some ("Bad Request: ".toList ++ parseErrorText)),
        Event.send (plainSend (welcomeMessage demoBot 42)) none] ∧
    handleBotUpdate envPlainPhotoRefused demoBot privateStart [] =
      some [Event.getObject "b1/welcome.jpg".toList none,
        Event.send (formattedPhoto demoBot 42 "Hi _you_".toList)
          (some ("Bad Request: ".toList ++ parseErrorText)),
        Event.getObject "b1/welcome.jpg".toList none,
        Event.send (plainPhoto demoBot 42) (some "Forbidden".toList),
        Event.send (formattedSend (welcomeMessage demoBot 42) "Hi _you_".toList) none] ∧
    handleBotUpdate envAllOk demoBot privateStart [] =
      some [Event.getObject "b1/welcome.jpg".toList none,
        Event.send (formattedPhoto demoBot 42 "Hi _you_".toList) none] ∧
    handleBotUpdate envRejecting demoBot privateStart [] =
      some [Event.getObject "b1/welcome.jpg".toList none,
        Event.send (formattedPhoto demoBot 42 "Hi _you_".toList)
          (some ("Bad Request: ".toList ++ parseErrorText)),
        Event.getObject "b1/welcome.jpg".toList none,
        Event.send (plainPhoto demoBot 42) none] :=
  ⟨handleBotUpdate_welcome_fallback envPlainPhotoRefused demoBot privateStart [] _ _ rfl rfl rfl rfl
      (by decide),
    by decide, by decide, by decide, by decide, by decide, by decide⟩

/-! ## The indices of the matches -/

theorem caps_indicesOK (i e g a b L : Nat) (last : Int) (hl : last ≤ (i : Int)) (hie : i < e)
    (heL : e ≤ L) (hg1 : 1 ≤ g) (hg7 : g ≤ 7) (hab : a ≤ b) (hbe : b ≤ e) :
    IndicesOK L last (caps i e g a b) := by
  have hgrp : GroupOK L (a : Int) (b : Int) := Or.inr ⟨by omega, by omega, by omega⟩
  have hnone : GroupOK L (-1) (-1) := Or.inl ⟨rfl, rfl⟩
  have hg : g = 1 ∨ g = 2 ∨ g = 3 ∨ g = 4 ∨ g = 5 ∨ g = 6 ∨ g = 7 := by omega
  rcases hg with rfl | rfl | rfl | rfl | rfl | rfl | rfl <;>
  · refine ⟨rfl, ⟨i, e, rfl, rfl, hl, by omega, by omega⟩, ?_, ?_⟩
    · intro k hk1 hk9
      have hk : k = 1 ∨ k = 2 ∨ k = 3 ∨ k = 4 ∨ k = 5 ∨ k = 6 ∨ k = 7 ∨ k = 8 ∨ k = 9 := by
        omega
      rcases hk with rfl | rfl | rfl | rfl | rfl | rfl | rfl | rfl | rfl <;>
        first
          | exact ⟨_, _, rfl, rfl, hgrp⟩
          | exact ⟨_, _, rfl, rfl, hnone⟩
    · intro x y hx hy h0
      have : x = -1 := (Option.some.inj hx).symm
      omega

theorem capsLink_indicesOK (i e a b c d L : Nat) (last : Int) (hl : last ≤ (i : Int))
    (hie : i < e) (heL : e ≤ L) (hab : a ≤ b) (hbc : b ≤ c) (hcd : c ≤ d)
    (hde : d ≤ e) : IndicesOK L last (capsLink i e a b c d) := by
  have h8 : GroupOK L (a : Int) (b : Int) := Or.inr ⟨by omega, by omega, by omega⟩
  have h9 : GroupOK L (c : Int) (d : Int) := Or.inr ⟨by omega, by omega, by omega⟩
  have hnone : GroupOK L (-1) (-1) := Or.inl ⟨rfl, rfl⟩
  refine ⟨rfl, ⟨i, e, rfl, rfl, hl, by omega, by omega⟩, ?_, ?_⟩
  · intro k hk1 hk9
    have hk : k = 1 ∨ k = 2 ∨ k = 3 ∨ k = 4 ∨ k = 5 ∨ k = 6 ∨ k = 7 ∨ k = 8 ∨ k = 9 := by
      omega
    rcases hk with rfl | rfl | rfl | rfl | rfl | rfl | rfl | rfl | rfl <;>
      first
        | exact ⟨_, _, rfl, rfl, h8⟩
        | exact ⟨_, _, rfl, rfl, h9⟩
        | exact ⟨_, _, rfl, rfl, hnone⟩
  · intro x y hx hy h0
    have : y = (c : Int) := (Option.some.inj hy).symm
    omega

theorem validMatch_indicesOK (i L : Nat) (last : Int) (m : List Int) (hl : last ≤ (i : Int))
    (hv : ValidMatch i L m) :
    IndicesOK L last m ∧ ∃ e : Nat, e ≤ L ∧ idx m 1 = some (e : Int) ∧ m.getD 1 0 = (e : Int) := by
  obtain ⟨e, hie, heL, hm⟩ := hv
  rcases hm with ⟨g, a, b, hg1, hg7, hia, hab, hbe, rfl⟩ | ⟨a, b, c, d, hia, hab, hbc, hcd, hde, rfl⟩
  · have h1 := (caps_idx i e g a b ⟨hg1, hg7⟩).2.1
    refine ⟨caps_indicesOK i e g a b L last hl hie heL hg1 hg7 hab hbe, e, heL, h1, ?_⟩
    simp only [idx] at h1
    simp [List.getD, h1]
  · exact ⟨capsLink_indicesOK i e a b c d L last hl hie heL hab hbc hcd hde, e, heL, rfl, rfl⟩

theorem allMatches_inOrder (input : Str) (n : Nat) :
    ∀ pos : Nat, pos ≤ input.length →
      MatchesInOrder input.length (pos : Int) (allMatches mdPattern input n pos) := by
  induction n with
  | zero => intro pos hpos; exact ⟨by omega, by omega⟩
  | succ n ih =>
    intro pos hpos
    simp only [allMatches]
    split
    · exact ⟨by omega, by omega⟩
    · rename_i m hm
      obtain ⟨i, hi, hv⟩ := searchFrom_valid pos _ m hm
      have hlen : pos + (List.drop pos input).length = input.length := by
        simp only [List.length_drop]; omega
      rw [hlen] at hv
      obtain ⟨hok, e, heL, h1, hget⟩ :=
        validMatch_indicesOK i input.length (pos : Int) m (by omega) hv
      refine ⟨by omega, hok, (e : Int), h1, ?_⟩
      rw [hget, Int.toNat_ofNat]
      exact ih e heL

/-- Claim C14: mdToTelegramV2 returns a string for every input, so no index or
slice expression in it is ever out of range; the matches it loops over are in
order and do not overlap (last is at most start, start at most end, end at most
the length of the input), each index vector has its 20 entries, and every
capture group is absent or bounds a valid slice. -/
theorem mdToTelegramV2_total (input : Str) :
    (∃ out, mdToTelegramV2 input = some out) ∧
    MatchesInOrder (normNewlines input).length 0
      (findAllStringSubmatchIndex mdPattern (normNewlines input)) := by
  refine ⟨mdToTelegramV2_isSome input, ?_⟩
  have := allMatches_inOrder (normNewlines input) ((normNewlines input).length + 1) 0
    (Nat.zero_le _)
  simpa [findAllStringSubmatchIndex] using this

/-! ## The update handler: callbacks, other updates and the keyboard -/

theorem handleBotUpdate_callback (env : Env) (cfg : Bot) (update : Update) (tr : List Event)
    (cq : CallbackQuery) (hg : fromGroup update = some false) (hs : isStart update = false)
    (hcq : update.CallbackQuery = some cq) (hdata : cq.Data = "check_subscription".toList) :
    handleBotUpdate env cfg update tr = handleCallback env cfg cq tr := by
  simp only [handleBotUpdate, hg, Option.some_bind, Bool.false_eq_true, if_false, hs, hcq, hdata,
    if_true]

theorem handleCallback_trace (env : Env) (cfg : Bot) (cq : CallbackQuery) (tr : List Event)
    (message : Message) (chat : Chat) (sender : User)
    (hmsg : cq.Message = some message) (hchat : message.Chat = some chat)
    (hfrom : cq.From = some sender) :
    ∃ d, handleCallback env cfg cq tr =
        some (tr ++ Event.answerCallback cq.ID [] ::
          Event.getChatMember cfg.ChannelID sender.ID
            (env.getChatMember (tr ++ [Event.answerCallback cq.ID []]) cfg.ChannelID sender.ID) ::
          d) ∧
      (∀ err, env.getChatMember (tr ++ [Event.answerCallback cq.ID []]) cfg.ChannelID sender.ID =
        MemberResult.error err → d = []) ∧
      ∀ e ∈ d, ∀ kb, e.replyMarkup = some kb → kb = subscribeKeyboard cfg := by
  simp only [handleCallback, hmsg, hchat, hfrom, Option.some_bind]
  cases hq : env.getChatMember (tr ++ [Event.answerCallback cq.ID []]) cfg.ChannelID sender.ID with
  | error err =>
    exact ⟨[], by simp, fun _ _ => rfl, by simp⟩
  | ok status =>
    simp only []
    by_cases hst : status = "left".toList ∨ status = "kicked".toList
    · obtain ⟨text, _, hsend⟩ := sendMsg_trace env (notSubMessage cfg chat.ID)
        (tr ++ [Event.answerCallback cq.ID []] ++
          [Event.getChatMember cfg.ChannelID sender.ID (MemberResult.ok status)])
      refine ⟨msgAttempts env (notSubMessage cfg chat.ID) text
        (tr ++ [Event.answerCallback cq.ID []] ++
          [Event.getChatMember cfg.ChannelID sender.ID (MemberResult.ok status)]),
        (by rw [if_pos hst, sendNotSub, hsend]; simp), (fun err h => by cases h), ?_⟩
      intro e he kb hkb
      have := (msgAttempts_textSend _ _ _ _ e he).2.1
      rw [this] at hkb
      exact (Option.some.inj hkb).symm
    · obtain ⟨d, hd, hprop⟩ := sendSuccess_shape env cfg chat.ID
        (tr ++ [Event.answerCallback cq.ID []] ++
          [Event.getChatMember cfg.ChannelID sender.ID (MemberResult.ok status)])
      refine ⟨listingEvent env cfg
        (tr ++ [Event.answerCallback cq.ID []] ++
          [Event.getChatMember cfg.ChannelID sender.ID (MemberResult.ok status)]) :: d,
        (by rw [if_neg hst, hd]; simp), (fun err h => by cases h), ?_⟩
      intro e he kb hkb
      rcases List.mem_cons.mp he with rfl | he
      · simp [listingEvent, Event.replyMarkup] at hkb
      · rw [(hprop e he).2] at hkb
        cases hkb

/-- Claim C12, as amended: a callback query from a direct chat whose data is
check_subscription (with an underscore), and which carries its message and
its sender, is first acknowledged; then the membership of the sender in the
configured channel is queried. -/
theorem handleBotUpdate_ack_then_query (env : Env) (cfg : Bot) (update : Update)
    (tr : List Event) (cq : CallbackQuery) (message : Message) (chat : Chat) (sender : User)
    (hg : fromGroup update = some false) (hs : isStart update = false)
    (hcq : update.CallbackQuery = some cq) (hdata : cq.Data = "check_subscription".toList)
    (hmsg : cq.Message = some message) (hchat : message.Chat = some chat)
    (hfrom : cq.From = some sender) :
    ∃ d, handleBotUpdate env cfg update tr =
      some (tr ++ Event.answerCallback cq.ID [] ::
        Event.getChatMember cfg.ChannelID sender.ID
          (env.getChatMember (tr ++ [Event.answerCallback cq.ID []]) cfg.ChannelID sender.ID) ::
        d) := by
  obtain ⟨d, hd, _⟩ := handleCallback_trace env cfg cq tr message chat sender hmsg hchat hfrom
  exact ⟨d, by rw [handleBotUpdate_callback env cfg update tr cq hg hs hcq hdata, hd]⟩

/-- Witness of C12 as amended: the press of the subscription button in a
private chat. -/
theorem handleBotUpdate_ack_then_query_witness :
    ∃ d, handleBotUpdate envAllOk demoBot privateCallback [] =
      some ([] ++ Event.answerCallback "cb1".toList [] ::
        Event.getChatMember (-1001) 7 (MemberResult.ok "member".toList) :: d) :=
  handleBotUpdate_ack_then_query envAllOk demoBot privateCallback [] _ _ _ _ rfl rfl rfl rfl rfl
    rfl rfl

/-- Claim C12 as stated fails: the data check-subscription, with a hyphen, is
not the data the handler recognises, so such a callback is neither
acknowledged nor followed by a membership query. -/
theorem handleBotUpdate_hyphen_ignored :
    handleBotUpdate envAllOk demoBot hyphenCallback [] = some [] := by
  decide

/-- Claim C13: when the membership query of a subscription-check callback
fails, the handler does exactly two things, the acknowledgement and the query,
and sends nothing; and the acknowledgement comes first whatever the
environment answers. -/
theorem handleBotUpdate_query_fails (env : Env) (cfg : Bot) (update : Update)
    (tr : List Event) (cq : CallbackQuery) (message : Message) (chat : Chat) (sender : User)
    (err : Str)
    (hg : fromGroup update = some false) (hs : isStart update = false)
    (hcq : update.CallbackQuery = some cq) (hdata : cq.Data = "check_subscription".toList)
    (hmsg : cq.Message = some message) (hchat : message.Chat = some chat)
    (hfrom : cq.From = some sender)
    (hq : env.getChatMember (tr ++ [Event.answerCallback cq.ID []]) cfg.ChannelID sender.ID =
      MemberResult.error err) :
    handleBotUpdate env cfg update tr =
      some (tr ++ [Event.answerCallback cq.ID [],
        Event.getChatMember cfg.ChannelID sender.ID (MemberResult.error err)]) ∧
    ∀ env2 : Env, ∃ d, handleBotUpdate env2 cfg update tr =
      some (tr ++ Event.answerCallback cq.ID [] :: d) := by
  constructor
  · obtain ⟨d, hd, hnil, _⟩ := handleCallback_trace env cfg cq tr message chat sender hmsg hchat
      hfrom
    rw [handleBotUpdate_callback env cfg update tr cq hg hs hcq hdata, hd, hnil err hq, hq]
  · intro env2
    obtain ⟨d, hd, _⟩ := handleCallback_trace env2 cfg cq tr message chat sender hmsg hchat hfrom
    exact ⟨_, by rw [handleBotUpdate_callback env2 cfg update tr cq hg hs hcq hdata, hd]⟩

/-- Witness of C13: the membership query times out. -/
theorem handleBotUpdate_query_fails_witness :
    handleBotUpdate envQueryFails demoBot privateCallback [] =
      some [Event.answerCallback "cb1".toList [],
        Event.getChatMember (-1001) 7 (MemberResult.error "timeout".toList)] :=
  (handleBotUpdate_query_fails envQueryFails demoBot privateCallback [] _ _ _ _ "timeout".toList
    rfl rfl rfl rfl rfl rfl rfl rfl).1

/-- Claim C15, evaluated: the callback branch reads
update.CallbackQuery.Message.Chat.ID and update.CallbackQuery.From.ID without a
nil check, so a subscription-check callback without originating message, or
without sender, ends in a runtime fault before anything is done. -/
theorem handleBotUpdate_nil_dereference :
    handleBotUpdate envAllOk demoBot orphanCallback [] = none ∧
    handleBotUpdate envAllOk demoBot anonymousCallback [] = none := by
  decide

/-- Claim C16: an update of a direct chat that is neither a start command nor
a callback query with the data check_subscription makes the handler do
nothing: the trace is unchanged. -/
theorem handleBotUpdate_ignores_other (env : Env) (cfg : Bot) (update : Update)
    (tr : List Event) (hg : fromGroup update = some false) (hs : isStart update = false)
    (hcb : ∀ cq, update.CallbackQuery = some cq → cq.Data ≠ "check_subscription".toList) :
    handleBotUpdate env cfg update tr = some tr := by
  simp only [handleBotUpdate, hg, Option.some_bind, Bool.false_eq_true, if_false, hs]
  cases hcq : update.CallbackQuery with
  | none => rfl
  | some cq => simp only [if_neg (hcb cq hcq)]

/-- Witness of C16: an ordinary text message, and a callback with other data,
both in a private chat. -/
theorem handleBotUpdate_ignores_other_witness :
    handleBotUpdate envAllOk demoBot privateText [] = some [] ∧
    handleBotUpdate envAllOk demoBot hyphenCallback [] = some [] :=
  ⟨handleBotUpdate_ignores_other envAllOk demoBot privateText [] rfl rfl (by decide),
   handleBotUpdate_ignores_other envAllOk demoBot hyphenCallback [] rfl rfl (by decide)⟩

/-- Claim C11, as amended: once the formatted photo has been rejected for its
markup and the image has been fetched again, a failure of the unformatted
photo resend does not end the flow: sendWelcome goes on to the text welcome,
sent through sendMsg with the welcome text and the keyboard. -/
theorem sendWelcome_resend_fails (env : Env) (cfg : Bot) (chatID : Int) (tr : List Event)
    (caption err1 err2 : Str) (hk : cfg.WelcomeImgKey ≠ [])
    (hcap : mdToTelegramV2 cfg.WelcomeMsg = some caption)
    (h0 : env.getObject tr cfg.WelcomeImgKey = none)
    (h1 : env.send (tr ++ [Event.getObject cfg.WelcomeImgKey none])
      (formattedPhoto cfg chatID caption) = some err1)
    (hp : stringsContains err1 parseErrorText = true)
    (h2 : env.getObject (tr ++ [Event.getObject cfg.WelcomeImgKey none,
      Event.send (formattedPhoto cfg chatID caption) (some err1)]) cfg.WelcomeImgKey = none)
    (h3 : env.send (tr ++ [Event.getObject cfg.WelcomeImgKey none,
      Event.send (formattedPhoto cfg chatID caption) (some err1),
      Event.getObject cfg.WelcomeImgKey none]) (plainPhoto cfg chatID) = some err2) :
    sendWelcome env cfg chatID tr =
      some (tr ++ [Event.getObject cfg.WelcomeImgKey none,
        Event.send (formattedPhoto cfg chatID caption) (some err1),
        Event.getObject cfg.WelcomeImgKey none,
        Event.send (plainPhoto cfg chatID) (some err2)] ++
        msgAttempts env (welcomeMessage cfg chatID) caption
          (tr ++ [Event.getObject cfg.WelcomeImgKey none,
            Event.send (formattedPhoto cfg chatID caption) (some err1),
            Event.getObject cfg.WelcomeImgKey none,
            Event.send (plainPhoto cfg chatID) (some err2)])) := by
  obtain ⟨text, htext, hsend⟩ := sendMsg_trace env (welcomeMessage cfg chatID)
    (tr ++ [Event.getObject cfg.WelcomeImgKey none,
      Event.send (formattedPhoto cfg chatID caption) (some err1),
      Event.getObject cfg.WelcomeImgKey none,
      Event.send (plainPhoto cfg chatID) (some err2)])
  have ht : text = caption := Option.some.inj (htext.symm.trans hcap)
  subst ht
  rw [← hsend]
  simp only [sendWelcome, if_pos hk, storeGetObject, h0, hcap, Option.some_bind, botSend, h1, hp,
    if_true, sendWelcomeRetry, List.append_assoc, List.singleton_append, List.cons_append,
    List.nil_append, h2, h3, sendWelcomeText]

/-- Witness of C11 as amended: formatted photos are rejected for their markup
and unformatted photos are refused. -/
theorem sendWelcome_resend_fails_witness :
    sendWelcome envPlainPhotoRefused demoBot 42 [] =
      some [Event.getObject "b1/welcome.jpg".toList none,
        Event.send (formattedPhoto demoBot 42 "Hi _you_".toList)
          (some ("Bad Request: ".toList ++ parseErrorText)),
        Event.getObject "b1/welcome.jpg".toList none,
        Event.send (plainPhoto demoBot 42) (some "Forbidden".toList),
        Event.send (formattedSend (welcomeMessage demoBot 42) "Hi _you_".toList) none] :=
  (sendWelcome_resend_fails envPlainPhotoRefused demoBot 42 [] "Hi _you_".toList
    ("Bad Request: ".toList ++ parseErrorText) "Forbidden".toList (by decide) (by decide) rfl rfl
    (by decide) rfl rfl).trans (by decide)

/-- Claim C11 as stated fails: after the failed unformatted resend the trace of
sendWelcome does not end with that photo attempt; a text welcome follows it. -/
theorem sendWelcome_resend_not_final :
    sendWelcome envPlainPhotoRefused demoBot 9 [] ≠
      some [Event.getObject "b1/welcome.jpg".toList none,
        Event.send (formattedPhoto demoBot 9 "Hi _you_".toList)
          (some ("Bad Request: ".toList ++ parseErrorText)),
        Event.getObject "b1/welcome.jpg".toList none,
        Event.send (plainPhoto demoBot 9) (some "Forbidden".toList)] ∧
    (sendWelcome envPlainPhotoRefused demoBot 9 [] >>= List.getLast?) =
      some (Event.send (formattedSend (welcomeMessage demoBot 9) "Hi _you_".toList) none) := by
  decide

theorem keyboardOf_text (env : Env) (cfg : Bot) (msg : MessageConfig) (tr : List Event)
    (hmsg : msg.ReplyMarkup = some (subscribeKeyboard cfg)) :
    ∃ d, sendMsg env msg tr = some (tr ++ d) ∧ ∀ e ∈ d, KeyboardOf cfg e := by
  obtain ⟨text, _, hsend⟩ := sendMsg_trace env msg tr
  refine ⟨_, hsend, ?_⟩
  intro e he kb hkb
  rw [(msgAttempts_textSend _ _ _ _ e he).2.1, hmsg] at hkb
  exact (Option.some.inj hkb).symm

theorem keyboardOf_append (env : Env) (cfg : Bot) (msg : MessageConfig) (tr pre : List Event)
    (hmsg : msg.ReplyMarkup = some (subscribeKeyboard cfg)) (hpre : ∀ e ∈ pre, KeyboardOf cfg e) :
    ∃ d, sendMsg env msg (tr ++ pre) = some (tr ++ d) ∧ ∀ e ∈ d, KeyboardOf cfg e := by
  obtain ⟨d, hd, hP⟩ := keyboardOf_text env cfg msg (tr ++ pre) hmsg
  refine ⟨pre ++ d, by rw [hd, List.append_assoc], ?_⟩
  intro e he
  rcases List.mem_append.mp he with he | he
  · exact hpre e he
  · exact hP e he

theorem sendWelcome_keyboard (env : Env) (cfg : Bot) (chatID : Int) (tr : List Event) :
    ∃ d, sendWelcome env cfg chatID tr = some (tr ++ d) ∧ ∀ e ∈ d, KeyboardOf cfg e := by
  obtain ⟨caption, hcap⟩ := mdToTelegramV2_isSome cfg.WelcomeMsg
  have hget : ∀ key err, KeyboardOf cfg (Event.getObject key err) := by
    intro key err kb hkb
    simp [Event.replyMarkup] at hkb
  have hph1 : ∀ err, KeyboardOf cfg (Event.send (formattedPhoto cfg chatID caption) err) := by
    intro err kb hkb
    simpa [Event.replyMarkup, formattedPhoto, eq_comm] using hkb
  have hph2 : ∀ err, KeyboardOf cfg (Event.send (plainPhoto cfg chatID) err) := by
    intro err kb hkb
    simpa [Event.replyMarkup, plainPhoto, eq_comm] using hkb
  have hwm : (welcomeMessage cfg chatID).ReplyMarkup = some (subscribeKeyboard cfg) := rfl
  by_cases hk : cfg.WelcomeImgKey = []
  · simp only [sendWelcome, hk, ne_eq, not_true_eq_false, if_false, sendWelcomeText]
    exact keyboardOf_text env cfg _ tr hwm
  simp only [sendWelcome, if_pos hk, storeGetObject, hcap, Option.some_bind, botSend,
    sendWelcomeRetry, sendWelcomeText]
  cases h0 : env.getObject tr cfg.WelcomeImgKey with
  | some err0 =>
    exact keyboardOf_append env cfg _ tr [_] hwm (by
      intro e he
      rw [List.mem_singleton.mp he]
      exact hget _ _)
  | none =>
    simp only []
    cases h1 : env.send (tr ++ [Event.getObject cfg.WelcomeImgKey none])
        (formattedPhoto cfg chatID caption) with
    | none =>
      refine ⟨[Event.getObject cfg.WelcomeImgKey none,
        Event.send (formattedPhoto cfg chatID caption) none], by simp, ?_⟩
      intro e he
      simp only [List.mem_cons, List.mem_singleton, List.not_mem_nil, or_false] at he
      rcases he with rfl | rfl
      · exact hget _ _
      · exact hph1 _
    | some err1 =>
      simp only []
      have hpre2 : ∀ e ∈ [Event.getObject cfg.WelcomeImgKey none,
          Event.send (formattedPhoto cfg chatID caption) (some err1)], KeyboardOf cfg e := by
        intro e he
        simp only [List.mem_cons, List.mem_singleton, List.not_mem_nil, or_false] at he
        rcases he with rfl | rfl
        · exact hget _ _
        · exact hph1 _
      by_cases hpe : stringsContains err1 parseErrorText = true
      · simp only [hpe, if_true]
        cases h2 : env.getObject (tr ++ [Event.getObject cfg.WelcomeImgKey none] ++
            [Event.send (formattedPhoto cfg chatID caption) (some err1)]) cfg.WelcomeImgKey with
        | some err2 =>
          simp only [List.append_assoc, List.singleton_append, List.cons_append, List.nil_append]
          exact keyboardOf_append env cfg _ tr [_, _, _] hwm (by
            intro e he
            simp only [List.mem_cons, List.mem_singleton, List.not_mem_nil, or_false] at he
            rcases he with rfl | rfl | rfl
            · exact hget _ _
            · exact hph1 _
            · exact hget _ _)
        | none =>
          simp only []
          cases h3 : env.send (tr ++ [Event.getObject cfg.WelcomeImgKey none] ++
              [Event.send (formattedPhoto cfg chatID caption) (some err1)] ++
              [Event.getObject cfg.WelcomeImgKey none]) (plainPhoto cfg chatID) with
          | none =>
            refine ⟨[Event.getObject cfg.WelcomeImgKey none,
              Event.send (formattedPhoto cfg chatID caption) (some err1),
              Event.getObject cfg.WelcomeImgKey none,
              Event.send (plainPhoto cfg chatID) none], by simp, ?_⟩
            intro e he
            simp only [List.mem_cons, List.mem_singleton, List.not_mem_nil, or_false] at he
            rcases he with rfl | rfl | rfl | rfl
            · exact hget _ _
            · exact hph1 _
            · exact hget _ _
            · exact hph2 _
          | some err3 =>
            simp only [List.append_assoc, List.singleton_append, List.cons_append,
              List.nil_append]
            exact keyboardOf_append env cfg _ tr [_, _, _, _] hwm (by
              intro e he
              simp only [List.mem_cons, List.mem_singleton, List.not_mem_nil, or_false] at he
              rcases he with rfl | rfl | rfl | rfl
              · exact hget _ _
              · exact hph1 _
              · exact hget _ _
              · exact hph2 _)
      · simp only [hpe, if_false]
        simp only [List.append_assoc, List.singleton_append]
        exact keyboardOf_append env cfg _ tr [_, _] hwm hpre2

theorem handleBotUpdate_keyboard (env : Env) (cfg : Bot) (update : Update) (tr d : List Event)
    (h : handleBotUpdate env cfg update tr = some (tr ++ d)) : ∀ e ∈ d, KeyboardOf cfg e := by
  have hnil : ∀ d0 : List Event, some tr = some (tr ++ d0) → ∀ e ∈ d0, KeyboardOf cfg e := by
    intro d0 h0 e he
    have : d0 = [] := by
      have := Option.some.inj h0
      exact List.append_right_eq_self.mp this.symm
    rw [this] at he
    simp at he
  have hof : ∀ (d1 : List Event), (∀ e ∈ d1, KeyboardOf cfg e) →
      some (tr ++ d1) = some (tr ++ d) → ∀ e ∈ d, KeyboardOf cfg e := by
    intro d1 h1 heq
    rw [← List.append_cancel_left (Option.some.inj heq)]
    exact h1
  unfold handleBotUpdate at h
  cases hg : fromGroup update with
  | none => rw [hg] at h; simp at h
  | some inGroup =>
    rw [hg] at h
    simp only [Option.some_bind] at h
    cases inGroup with
    | true => exact hnil d (by simpa using h)
    | false =>
      simp only [Bool.false_eq_true, if_false] at h
      by_cases hs : isStart update = true
      · simp only [hs, if_true] at h
        cases hc : (update.Message.bind fun message => message.Chat) with
        | none => rw [hc] at h; simp at h
        | some chat =>
          rw [hc] at h
          simp only [Option.some_bind] at h
          obtain ⟨d1, hd1, hP⟩ := sendWelcome_keyboard env cfg chat.ID tr
          rw [hd1] at h
          exact hof d1 hP h
      · simp only [hs, if_false] at h
        cases hcq : update.CallbackQuery with
        | none => rw [hcq] at h; exact hnil d h
        | some cq =>
          rw [hcq] at h
          simp only [] at h
          by_cases hdata : cq.Data = "check_subscription".toList
          · simp only [hdata, if_true] at h
            cases hmsg : cq.Message with
            | none => simp [handleCallback, hmsg] at h
            | some message =>
              cases hchat : message.Chat with
              | none => simp [handleCallback, hmsg, hchat] at h
              | some chat =>
                cases hfrom : cq.From with
                | none => simp [handleCallback, hmsg, hchat, hfrom] at h
                | some sender =>
                  obtain ⟨d1, hd1, _, hP⟩ := handleCallback_trace env cfg cq tr message chat sender
                    hmsg hchat hfrom
                  rw [hd1] at h
                  refine hof _ ?_ h
                  intro e he
                  rcases List.mem_cons.mp he with rfl | he
                  · intro kb hkb; simp [Event.replyMarkup] at hkb
                  · rcases List.mem_cons.mp he with rfl | he
                    · intro kb hkb; simp [Event.replyMarkup] at hkb
                    · exact hP e he
          · simp only [hdata, if_false] at h
            exact hnil d h

/-- Claim C17: the formatted welcome photo, the unformatted welcome photo, the
text welcome and the not-subscribed message all carry the same keyboard, and
whatever the handler sends with a keyboard, that keyboard is one button,
labelled with the configured button text, whose callback data is the data the
handler recognises: an update with that data enters the subscription check. -/
theorem keyboard_reenters_check (env : Env) (cfg : Bot) (update : Update) (tr d : List Event)
    (h : handleBotUpdate env cfg update tr = some (tr ++ d)) :
    (∀ (chatID : Int) (caption : Str) (err : Option Str),
      (Event.send (formattedPhoto cfg chatID caption) err).replyMarkup =
        some (subscribeKeyboard cfg) ∧
      (Event.send (plainPhoto cfg chatID) err).replyMarkup = some (subscribeKeyboard cfg) ∧
      (Event.send (Chattable.message (welcomeMessage cfg chatID)) err).replyMarkup =
        some (subscribeKeyboard cfg) ∧
      (Event.send (Chattable.message (notSubMessage cfg chatID)) err).replyMarkup =
        some (subscribeKeyboard cfg)) ∧
    ∀ e ∈ d, ∀ kb, e.replyMarkup = some kb →
      ∃ b : Button, kb = [[b]] ∧ b.Text = cfg.ButtonText ∧
        ∀ (env2 : Env) (update2 : Update) (cq : CallbackQuery) (tr2 : List Event),
          fromGroup update2 = some false → isStart update2 = false →
          update2.CallbackQuery = some cq → cq.Data = b.CallbackData →
          handleBotUpdate env2 cfg update2 tr2 = handleCallback env2 cfg cq tr2 := by
  refine ⟨fun _ _ _ => ⟨rfl, rfl, rfl, rfl⟩, ?_⟩
  intro e he kb hkb
  have hk := handleBotUpdate_keyboard env cfg update tr d h e he kb hkb
  refine ⟨{ Text := cfg.ButtonText, CallbackData := "check_subscription".toList }, hk, rfl, ?_⟩
  intro env2 update2 cq tr2 hg hs hcq hdata
  exact handleBotUpdate_callback env2 cfg update2 tr2 cq hg hs hcq hdata

/-- Witness of C17: the welcome photo sent on a start command carries the
button Check, and a press of it enters the subscription check. -/
theorem keyboard_reenters_check_witness :
    handleBotUpdate envAllOk demoBot privateStart [] =
      some ([] ++ [Event.getObject "b1/welcome.jpg".toList none,
        Event.send (formattedPhoto demoBot 42 "Hi _you_".toList) none]) ∧
    ∃ b : Button, [[({ Text := "Check".toList, CallbackData := "check_subscription".toList } :
        Button)]] = [[b]] ∧ b.Text = demoBot.ButtonText ∧
      ∀ (env2 : Env) (update2 : Update) (cq : CallbackQuery) (tr2 : List Event),
        fromGroup update2 = some false → isStart update2 = false →
        update2.CallbackQuery = some cq → cq.Data = b.CallbackData →
        handleBotUpdate env2 demoBot update2 tr2 = handleCallback env2 demoBot cq tr2 :=
  ⟨by decide,
    (keyboard_reenters_check envAllOk demoBot privateStart []
      [Event.getObject "b1/welcome.jpg".toList none,
        Event.send (formattedPhoto demoBot 42 "Hi _you_".toList) none] (by decide)).2
      (Event.send (formattedPhoto demoBot 42 "Hi _you_".toList) none) (by simp)
      [[{ Text := "Check".toList, CallbackData := "check_subscription".toList }]] rfl⟩

end BotRunner
